import Mathlib

/-!
Verification of the ETG device action-sync server (`src/server/etg_server.py`,
with the identical embedded copy in `src/etg_bridge.py`).

The development shallowly embeds the data model and the operations of the
server: JSON-like values as produced by `json.loads`, the per-device registry
state (`BridgeState`), the queue operations (`queue_action`, `_prune_queue`,
`_collect_actions`), the result store (`_append_results`, `get_result`), the
sync protocol handler (`handle_sync`), the status snapshot (`status_payload`),
the WebSocket frame codec (`_WebSocketConn.send_frame` / `recv_text`) and the
upgrade handshake (`_upgrade_ws`, including SHA-1 and base64).

Timestamps (`time.time()`) are modelled as integers passed in explicitly;
fresh uuid4 ids are modelled as explicitly passed strings.  Python string
`str.strip()` is modelled by `pyStrip` (ASCII whitespace).
-/

set_option autoImplicit false

namespace Etg

/-- JSON-like values as produced by `json.loads` (numbers restricted to
integers; no claim involves fractional numbers). An object is an
insertion-ordered association list with unique keys, as a parsed Python
dict. -/
inductive JVal where
  | jnull
  | jbool (b : Bool)
  | jint (n : Int)
  | jstr (s : String)
  | jarr (items : List JVal)
  | jobj (fields : List (String × JVal))
deriving Repr

instance : Inhabited JVal := ⟨.jnull⟩

/-- Python truthiness (`bool(x)`) of a JSON value. -/
def JVal.truthy : JVal → Bool
  | .jnull => false
  | .jbool b => b
  | .jint n => n != 0
  | .jstr s => s != ""
  | .jarr items => !items.isEmpty
  | .jobj fields => !fields.isEmpty

/-- Python `dict.get(key)`: the value at the first (unique) matching key. -/
def jget (fields : List (String × JVal)) (key : String) : Option JVal :=
  (fields.find? (fun kv => kv.fst == key)).map (fun kv => kv.snd)

/-- An ASCII single-quote character, as used by the Python repr of strings. -/
def sq : String := String.singleton (Char.ofNat 39)

/-- Python `repr` of a JSON value (quote escaping inside strings is not
modelled; no claim evaluates `str()` on values containing quotes). -/
def pyRepr : JVal → String
  | .jnull => "None"
  | .jbool true => "True"
  | .jbool false => "False"
  | .jint n => toString n
  | .jstr s => sq ++ s ++ sq
  | .jarr items =>
      "[" ++ String.intercalate ", " (items.attach.map (fun x => pyRepr x.val)) ++ "]"
  | .jobj fields =>
      "\x7b" ++ String.intercalate ", "
        (fields.attach.map (fun kv => sq ++ kv.val.fst ++ sq ++ ": " ++ pyRepr kv.val.snd))
      ++ "\x7d"
decreasing_by
  · have := List.sizeOf_lt_of_mem x.property
    simp_wf
    omega
  · obtain ⟨⟨k, v⟩, hkv⟩ := kv
    have := List.sizeOf_lt_of_mem hkv
    simp_wf
    simp [Prod.mk.sizeOf_spec] at this
    omega

/-- Python `str(x)` of a JSON value: strings print without quotes, any other
value prints as its repr. -/
def pyStr : JVal → String
  | .jstr s => s
  | v => pyRepr v

/-- Python `str(x or "")`: the empty string when the value is absent or falsy,
otherwise `str(x)`. -/
def pyStrOrEmpty : Option JVal → String
  | none => ""
  | some v => if v.truthy then pyStr v else ""

/-- Python `str.strip()`: drop leading and trailing whitespace (ASCII
whitespace; the servers only ever strip ASCII configuration values and
ids). -/
def pyStrip (s : String) : String :=
  String.mk (((s.data.dropWhile Char.isWhitespace).reverse.dropWhile
    Char.isWhitespace).reverse)

/-- Python `lst[-n:]` for a nonnegative count `n`: the whole list when
`n = 0` (since `lst[-0:]` is `lst[0:]`), otherwise the last `n` elements. -/
def keepLast {α : Type} (n : Nat) (l : List α) : List α :=
  if n = 0 then l else l.drop (l.length - n)

/-- Oldest-first capacity truncation as performed by the server
(`if len(lst) > cap: lst = lst[-cap:]`, and the equivalent
`del lst[:-cap]` form used for logs and results). -/
def capList {α : Type} (cap : Nat) (l : List α) : List α :=
  if l.length > cap then keepLast cap l else l

/-- One queued command awaiting delivery (the dict built by `queue_action`). -/
structure QueuedAction where
  id : String
  action : String
  payload : JVal
  ttl : Int
  ts : Int
  sent_ts : Int
deriving Repr, Inhabited

/-- One diagnostic log line (the dict built by `_log_device`; `handle_sync`
can store a non-string truthy `text` value taken from a log entry dict). -/
structure LogEntry where
  ts : Int
  text : JVal
  level : String
deriving Repr, Inhabited

/-- One reported command outcome (the dict built by `_append_results`). -/
structure ResultEntry where
  ts : Int
  id : String
  ok : Bool
  action : String
  data : JVal
  error : String
deriving Repr, Inhabited

/-- The push connection handle bound to a device; only the liveness flag is
relevant to the queue/push claims. -/
structure WsConn where
  alive : Bool
deriving Repr, Inhabited

/-- One device record (the dict built by `BridgeState._get_device`). -/
structure Device where
  id : String
  created_at : Int
  last_seen : Int
  ip : String
  info : List (String × JVal)
  queue : List QueuedAction
  logs : List LogEntry
  results : List ResultEntry
  ws : Option WsConn
deriving Repr, Inhabited

/-- The configuration fields read by the embedded operations. -/
structure Config where
  auth_token : String
  max_queue : Nat
  max_logs : Nat
  max_results : Nat
  resend_after : Int
deriving Repr, Inhabited

/-- The registry state: the insertion-ordered device table (a Python dict,
unique keys) and the last-device reference. -/
structure BridgeState where
  devices : List (String × Device)
  last_device_id : Option String
deriving Repr, Inhabited

/-- Lookup of a device record by id (no creation). -/
def lookupDevice (st : BridgeState) (deviceId : String) : Option Device :=
  (st.devices.find? (fun kv => kv.fst == deviceId)).map (fun kv => kv.snd)

/-- The fresh record built by `_get_device` for an unknown id. -/
def newDevice (deviceId : String) (now : Int) : Device :=
  { id := deviceId
    created_at := now
    last_seen := 0
    ip := ""
    info := []
    queue := []
    logs := []
    results := []
    ws := none }

/-- The lookup-or-create path `BridgeState._get_device`: an unknown id is
inserted at the end of the table (Python dict insertion order). -/
def getDevice (st : BridgeState) (deviceId : String) (now : Int) :
    Device × BridgeState :=
  match lookupDevice st deviceId with
  | some d => (d, st)
  | none =>
      let d := newDevice deviceId now
      (d, { st with devices := st.devices ++ [(deviceId, d)] })

/-- Write back an updated record for an existing device id, preserving table
order (in Python the record dict is mutated in place). -/
def setDevice (st : BridgeState) (deviceId : String) (d : Device) : BridgeState :=
  { st with
    devices := st.devices.map (fun kv => if kv.fst == deviceId then (kv.fst, d) else kv) }

/-- The log append path `BridgeState._log_device`. -/
def logDevice (cfg : Config) (d : Device) (text : JVal) (level : String)
    (now : Int) : Device :=
  { d with logs := capList cfg.max_logs (d.logs ++ [{ ts := now, text := text, level := level }]) }

/-- The result entry built from one element of an incoming `results` list
(non-dict elements are skipped). -/
def resultFromItem (now : Int) (item : JVal) : Option ResultEntry :=
  match item with
  | .jobj fields =>
      some
        { ts := now
          id := pyStrOrEmpty (jget fields "id")
          ok := ((jget fields "ok").getD (.jbool false)).truthy
          action := pyStrOrEmpty (jget fields "action")
          data := (jget fields "data").getD .jnull
          error := pyStrOrEmpty (jget fields "error") }
  | _ => none

/-- The result append path `BridgeState._append_results` (early return on an
empty list, append each well-formed entry, then truncate to capacity). -/
def appendResults (cfg : Config) (d : Device) (results : List JVal) (now : Int) : Device :=
  if results.isEmpty then d
  else
    { d with results := capList cfg.max_results (d.results ++ results.filterMap (resultFromItem now)) }

/-- The queue pruning path `BridgeState._prune_queue`: drop every action whose
id is acknowledged or whose age strictly exceeds its TTL. -/
def pruneQueue (d : Device) (ackIds : List String) (now : Int) : Device :=
  { d with
    queue := d.queue.filter (fun item =>
      !(ackIds.contains item.id) && !(decide (now - item.ts > item.ttl))) }

/-- The outbound action dict built by `BridgeState._collect_actions`. -/
structure ActionOut where
  id : String
  action : String
  payload : JVal
  ttl : Int
  ts : Int
deriving Repr, Inhabited

/-- The view of a queued action sent to the device. -/
def QueuedAction.out (item : QueuedAction) : ActionOut :=
  { id := item.id
    action := item.action
    payload := item.payload
    ttl := item.ttl
    ts := item.ts }

/-- The delivery path `BridgeState._collect_actions`: walk the queue in order;
an action whose `sent_ts` is nonzero and more recent than `resend_after`
seconds ago is skipped, any other action gets `sent_ts` set to `now` and is
included in the output. Returns the updated queue and the collected list. -/
def collectActions (cfg : Config) (now : Int) :
    List QueuedAction → List QueuedAction × List ActionOut
  | [] => ([], [])
  | item :: rest =>
      let (q, acts) := collectActions cfg now rest
      if item.sent_ts != 0 && decide (now - item.sent_ts < cfg.resend_after) then
        (item :: q, acts)
      else
        ({ item with sent_ts := now } :: q, item.out :: acts)

/-- The linear scan `BridgeState._find_result_index` (the Python
enumerate-and-return-first loop). -/
def findResultIndex (results : List ResultEntry) (actionId : String) : Option Nat :=
  match results with
  | [] => none
  | item :: rest =>
      if item.id == actionId then some 0
      else (findResultIndex rest actionId).map (fun i => i + 1)

/-- The symbolic device resolution `BridgeState._pick_device`. -/
def pickDevice (st : BridgeState) (raw : String) : Option String :=
  if raw != "" && raw != "last" then some raw
  else
    match st.last_device_id with
    | some lid => if lid != "" then some lid else (st.devices.head?).map (fun kv => kv.fst)
    | none => (st.devices.head?).map (fun kv => kv.fst)

/-- Result of `BridgeState.queue_action`: the returned pair, the list of
actions pushed over a live bound connection (empty when none is bound or
nothing was due), and the updated state. -/
structure QueueOutcome where
  action_id : Option String
  device_id : Option String
  pushed : List ActionOut
  state : BridgeState
deriving Repr, Inhabited

/-- The enqueue path `BridgeState.queue_action`. The fresh uuid4 hex id is
passed in as `freshId`; the optional `payload` argument defaults to an empty
object (`payload or {}`). -/
def queueAction (cfg : Config) (st : BridgeState) (deviceIdArg : String)
    (action : String) (payload : Option JVal) (ttl : Int) (now : Int)
    (freshId : String) : QueueOutcome :=
  let did0 := pyStrip deviceIdArg
  let did := if did0 == "last" then (pickDevice st "last").getD "" else did0
  if did = "" then
    { action_id := none, device_id := none, pushed := [], state := st }
  else
    let (dev, st1) := getDevice st did now
    let storedPayload :=
      match payload with
      | some p => if p.truthy then p else .jobj []
      | none => .jobj []
    let item : QueuedAction :=
      { id := freshId, action := action, payload := storedPayload
        ttl := ttl, ts := now, sent_ts := 0 }
    let dev1 := { dev with queue := capList cfg.max_queue (dev.queue ++ [item]) }
    let dev2 := logDevice cfg dev1 (.jstr ("queued " ++ action ++ " id=" ++ freshId)) "info" now
    match dev2.ws with
    | some w =>
        if w.alive then
          let (q, acts) := collectActions cfg now dev2.queue
          { action_id := some freshId, device_id := some did
            pushed := acts
            state := setDevice st1 did { dev2 with queue := q } }
        else
          { action_id := some freshId, device_id := some did
            pushed := [], state := setDevice st1 did dev2 }
    | none =>
        { action_id := some freshId, device_id := some did
          pushed := [], state := setDevice st1 did dev2 }

/-- One enqueue request for iterated `queue_action` calls: the fresh id, the
action name, the optional payload, the TTL, and the call time. -/
structure EnqReq where
  freshId : String
  action : String
  payload : Option JVal
  ttl : Int
  now : Int
deriving Repr, Inhabited

/-- Iterated `queue_action` calls against one device (a test harness fold
used to state the capacity-eviction property). -/
def enqueueAll (cfg : Config) (st : BridgeState) (deviceIdArg : String)
    (reqs : List EnqReq) : BridgeState :=
  reqs.foldl (fun s r =>
    (queueAction cfg s deviceIdArg r.action r.payload r.ttl r.now r.freshId).state) st

/-- The id sequence of the pending queue of a device (empty when the device
is unknown). -/
def queueIds (st : BridgeState) (deviceId : String) : List String :=
  match lookupDevice st deviceId with
  | some dv => dv.queue.map (fun it => it.id)
  | none => []

/-- Result of `BridgeState.get_result`: the returned entry (None when absent)
and the updated state. -/
structure GetOutcome where
  result : Option ResultEntry
  state : BridgeState
deriving Repr, Inhabited

/-- The retrieval path `BridgeState.get_result`: resolve the device id, run
the lookup-or-create path, scan for the first entry matching the action id,
and pop it when requested. -/
def getResult (st : BridgeState) (deviceIdArg : String) (actionId : String)
    (pop : Bool) (now : Int) : GetOutcome :=
  let did0 := pyStrip deviceIdArg
  let did := if did0 == "last" then (pickDevice st "last").getD "" else did0
  if did = "" then
    { result := none, state := st }
  else
    let (dev, st1) := getDevice st did now
    match findResultIndex dev.results actionId with
    | none => { result := none, state := st1 }
    | some idx =>
        match dev.results.get? idx with
        | none =>
            -- unreachable: `findIdx?` only returns in-bounds indices
            { result := none, state := st1 }
        | some item =>
            if pop then
              { result := some item
                state := setDevice st1 did { dev with results := dev.results.eraseIdx idx } }
            else
              { result := some item, state := st1 }

/-- The response payload of `handle_sync`: either an error object
`\x7bok: False, error: ...\x7d` or the success object carrying the device id,
the millisecond server timestamp, and the collected actions. -/
inductive SyncResp where
  | fail (error : String)
  | good (device_id : String) (server_ts : Int) (actions : List ActionOut)
deriving Repr, Inhabited

/-- Result of `handle_sync`: HTTP-style status code, response payload, and
the updated registry state. -/
structure SyncOutcome where
  status : Int
  resp : SyncResp
  state : BridgeState
deriving Repr, Inhabited

/-- The log text extracted from one element of an incoming `logs` list:
`entry.get("text") or ""` for dict entries, `str(entry)` otherwise. -/
def logTextOf (entry : JVal) : JVal :=
  match entry with
  | .jobj efields =>
      match jget efields "text" with
      | some v => if v.truthy then v else .jstr ""
      | none => .jstr ""
  | v => .jstr (pyStr v)

/-- The acknowledgement id set built by `handle_sync`: every truthy element of
an `ack` list, together with the id of every dict element of a `results` list
whose `id` field is truthy (a reported result is an implicit ack). Modelled
as a list; only membership is ever used. -/
def ackIdsOf (ack : Option JVal) (results : Option JVal) : List String :=
  (match ack with
   | some (.jarr xs) => (xs.filter (fun x => x.truthy)).map pyStr
   | _ => []) ++
  (match results with
   | some (.jarr rs) =>
       rs.filterMap (fun x =>
         match x with
         | .jobj xf =>
             match jget xf "id" with
             | some v => if v.truthy then some (pyStr v) else none
             | none => none
         | _ => none)
   | _ => [])

/-- The info-replacement step of `handle_sync`
(`if isinstance(info, dict): device["info"] = info`). -/
def infoStep (dev : Device) (infoVal : Option JVal) : Device :=
  match infoVal with
  | some (.jobj infoFields) => { dev with info := infoFields }
  | _ => dev

/-- The log-ingestion step of `handle_sync` (`if isinstance(logs, list)`). -/
def logsStep (cfg : Config) (now : Int) (dev : Device) (logsVal : Option JVal) :
    Device :=
  match logsVal with
  | some (.jarr entries) =>
      entries.foldl (fun dd entry =>
        let text := logTextOf entry
        if text.truthy then logDevice cfg dd text "info" now else dd) dev
  | _ => dev

/-- The result-ingestion step of `handle_sync`
(`if isinstance(results, list)`). -/
def resultsStep (cfg : Config) (now : Int) (dev : Device) (resVal : Option JVal) :
    Device :=
  match resVal with
  | some (.jarr rs) => appendResults cfg dev rs now
  | _ => dev

/-- The sync protocol handler `BridgeState.handle_sync` (identical in
`etg_server.py` and `etg_bridge.py`): payload validation, auth gate,
device lookup-or-create, last-seen/ip update, info replacement, log and
result ingestion, ack collection, queue prune, and action collection.
The millisecond `server_ts` is modelled as `1000 * now`. -/
def handleSync (cfg : Config) (st : BridgeState) (payload : JVal)
    (clientIp : String) (now : Int) : SyncOutcome :=
  match payload with
  | .jobj fields =>
      let token := pyStrip cfg.auth_token
      let tokenMatches :=
        match jget fields "token" with
        | some (.jstr s) => s == token
        | _ => false
      if token != "" && !tokenMatches then
        { status := 401, resp := .fail "unauthorized", state := st }
      else
        let deviceId := pyStrip (pyStrOrEmpty (jget fields "device_id"))
        if deviceId = "" then
          { status := 400, resp := .fail "missing_device_id", state := st }
        else
          let (dev0, st1) := getDevice st deviceId now
          let dev1 := { dev0 with last_seen := now, ip := clientIp }
          let dev2 := infoStep dev1 (jget fields "info")
          let dev3 := logsStep cfg now dev2 (jget fields "logs")
          let dev4 := resultsStep cfg now dev3 (jget fields "results")
          let dev5 := pruneQueue dev4 (ackIdsOf (jget fields "ack") (jget fields "results")) now
          let (q, actions) := collectActions cfg now dev5.queue
          let st2 := setDevice st1 deviceId { dev5 with queue := q }
          { status := 200
            resp := .good deviceId (1000 * now) actions
            state := { st2 with last_device_id := some deviceId } }
  | _ => { status := 400, resp := .fail "invalid_payload", state := st }

/-- One device line of the `/status` snapshot. -/
structure DeviceSummary where
  id : String
  last_seen : Int
  ip : String
  info : List (String × JVal)
  queue : Nat
  logs : Nat
  results : Nat
  transport : String
deriving Repr, Inhabited

/-- The snapshot `BridgeState.status_payload` (the `ok` flag and millisecond
timestamp are constants and omitted from the claims). -/
def statusPayload (st : BridgeState) : List DeviceSummary × Option String :=
  (st.devices.map (fun kv =>
      let d := kv.snd
      { id := d.id
        last_seen := d.last_seen
        ip := d.ip
        info := d.info
        queue := d.queue.length
        logs := d.logs.length
        results := d.results.length
        transport :=
          match d.ws with
          | some w => if w.alive then "ws" else "http"
          | none => "http" }),
   st.last_device_id)

/-! The WebSocket frame codec of `_WebSocketConn` (RFC 6455 data framing),
modelled over byte streams as `List Nat` with byte values below 256. -/

/-- Big-endian serialization of `n` into `k` bytes (`struct.pack` with
format `!H` for `k = 2` and `!Q` for `k = 8`; values are reduced mod
`256 ^ k`, and `struct.pack` raises on out-of-range values so callers
stay below that bound). -/
def beBytes : Nat → Nat → List Nat
  | 0, _ => []
  | k + 1, n => (n / 256 ^ k) % 256 :: beBytes k (n % 256 ^ k)

/-- Big-endian deserialization (`struct.unpack("!H", ...)` and
`struct.unpack("!Q", ...)`). -/
def beVal (bytes : List Nat) : Nat :=
  bytes.foldl (fun acc b => acc * 256 + b) 0

/-- The frame serialization `_WebSocketConn.send_frame`: a FIN byte carrying
the opcode, the three-tier length encoding (inline below 126, 16-bit
big-endian below 65536, else 64-bit big-endian), then the raw unmasked
payload. -/
def sendFrame (opcode : Nat) (payload : List Nat) : List Nat :=
  let b1 := 0x80 ||| (opcode &&& 0x0F)
  let length := payload.length
  (if length ≤ 125 then [b1, length]
   else if length < 65536 then [b1, 126] ++ beBytes 2 length
   else [b1, 127] ++ beBytes 8 length) ++ payload

/-- XOR masking of a payload with a 4-byte key
(`b ^ mask_key[i % 4]` for each byte `b` at index `i`, as in `recv_text`). -/
def maskBytes (maskKey : List Nat) (payload : List Nat) : List Nat :=
  payload.mapIdx (fun i b => b ^^^ maskKey.getD (i % 4) 0)

/-- The masked client-to-server form of a frame: the same header with the
mask bit set on the length byte, then the 4-byte mask key, then the payload
with byte `i` XORed with `mask[i % 4]`. This is the form `recv_text` is
specified to accept; the server itself always sends the unmasked form. -/
def sendFrameMasked (opcode : Nat) (maskKey : List Nat) (payload : List Nat) :
    List Nat :=
  let b1 := 0x80 ||| (opcode &&& 0x0F)
  let length := payload.length
  [b1] ++
  (if length ≤ 125 then [0x80 ||| length]
   else if length < 65536 then [0x80 ||| 126] ++ beBytes 2 length
   else [0x80 ||| 127] ++ beBytes 8 length) ++
  maskKey ++ maskBytes maskKey payload

/-- The bounded read `_WebSocketConn._recv_exact`: exactly `n` bytes, or
`none` on a short read. -/
def recvExact (n : Nat) (s : List Nat) : Option (List Nat × List Nat) :=
  if s.length < n then none else some (s.take n, s.drop n)

/-- Outcome of one `recv_text` call: `closed` models the Python `None` return
(short read at any point, or a close frame), `ctrl` models the empty-string
return for ping/pong/unrecognized opcodes (carrying the auto-pong payload
when the frame was a ping), and `text` carries the unmasked payload bytes of
a text frame together with the unconsumed remainder of the stream. -/
inductive RecvOutcome where
  | closed
  | ctrl (pongReply : Option (List Nat)) (rest : List Nat)
  | text (payload : List Nat) (rest : List Nat)
deriving Repr, Inhabited

/-- The frame parser `_WebSocketConn.recv_text`, up to (but not including)
the UTF-8 text decoding step. A failed 4-byte mask-key read is replaced by
an empty key (`self._recv_exact(4) or b""`) after the socket has been
drained, so the model also drains the stream there. -/
def recvFrame (s : List Nat) : RecvOutcome :=
  match recvExact 2 s with
  | none => .closed
  | some (header, s1) =>
      match header with
      | [b1, b2] =>
          let opcode := b1 &&& 0x0F
          let masked := b2 &&& 0x80 != 0
          let length0 := b2 &&& 0x7F
          let extStep : Option (Nat × List Nat) :=
            if length0 = 126 then
              match recvExact 2 s1 with
              | none => none
              | some (ext, s2) => some (beVal ext, s2)
            else if length0 = 127 then
              match recvExact 8 s1 with
              | none => none
              | some (ext, s2) => some (beVal ext, s2)
            else some (length0, s1)
          match extStep with
          | none => .closed
          | some (length, s2) =>
              let maskStep : List Nat × List Nat :=
                if masked then
                  match recvExact 4 s2 with
                  | none => ([], [])
                  | some (mk, s3) => (mk, s3)
                else ([], s2)
              let maskKey := maskStep.fst
              let s3 := maskStep.snd
              match (if length = 0 then some (([] : List Nat), s3) else recvExact length s3) with
              | none => .closed
              | some (payloadRaw, s4) =>
                  let payload :=
                    if masked && !maskKey.isEmpty then maskBytes maskKey payloadRaw
                    else payloadRaw
                  if opcode = 0x8 then .closed
                  else if opcode = 0x9 then .ctrl (some payload) s4
                  else if opcode = 0xA then .ctrl none s4
                  else if opcode != 0x1 then .ctrl none s4
                  else .text payload s4
      | _ => .closed

/-! UTF-8 encoding and decoding over code points, mirroring Python
`str.encode("utf-8")` and strict `bytes.decode("utf-8")`. -/

/-- UTF-8 encoding of one Unicode scalar value. -/
def utf8EncodeNat (c : Nat) : List Nat :=
  if c < 0x80 then [c]
  else if c < 0x800 then [0xC0 + c / 64, 0x80 + c % 64]
  else if c < 0x10000 then [0xE0 + c / 4096, 0x80 + c / 64 % 64, 0x80 + c % 64]
  else [0xF0 + c / 262144, 0x80 + c / 4096 % 64, 0x80 + c / 64 % 64, 0x80 + c % 64]

/-- UTF-8 encoding of a string (`s.encode("utf-8")`). -/
def strUtf8 (s : String) : List Nat :=
  (s.data.map (fun c => utf8EncodeNat c.toNat)).flatten

/-- One step of strict UTF-8 decoding (`bytes.decode("utf-8")`): decode the
scalar value at the head of the byte list, rejecting truncated sequences,
stray continuation bytes, overlong forms, surrogates, and code points above
U+10FFFF, exactly as the Python codec does. Returns the scalar value and the
remaining bytes. -/
def utf8DecodeStep (bs : List Nat) : Option (Nat × List Nat) :=
  match bs with
  | [] => none
  | b :: rest =>
      if b < 0x80 then some (b, rest)
      else if b < 0xC2 then none
      else if b < 0xE0 then
        match rest with
        | b1 :: rest2 =>
            if 0x80 ≤ b1 ∧ b1 < 0xC0 then
              some ((b - 0xC0) * 64 + (b1 - 0x80), rest2)
            else none
        | [] => none
      else if b < 0xF0 then
        match rest with
        | b1 :: b2 :: rest2 =>
            if (0x80 ≤ b1 ∧ b1 < 0xC0) ∧ (0x80 ≤ b2 ∧ b2 < 0xC0) ∧
                ¬(b = 0xE0 ∧ b1 < 0xA0) ∧ ¬(b = 0xED ∧ 0xA0 ≤ b1) then
              some ((b - 0xE0) * 4096 + (b1 - 0x80) * 64 + (b2 - 0x80), rest2)
            else none
        | _ => none
      else if b < 0xF5 then
        match rest with
        | b1 :: b2 :: b3 :: rest2 =>
            if (0x80 ≤ b1 ∧ b1 < 0xC0) ∧ (0x80 ≤ b2 ∧ b2 < 0xC0) ∧
                (0x80 ≤ b3 ∧ b3 < 0xC0) ∧
                ¬(b = 0xF0 ∧ b1 < 0x90) ∧ ¬(b = 0xF4 ∧ 0x90 ≤ b1) then
              some ((b - 0xF0) * 262144 + (b1 - 0x80) * 4096 +
                (b2 - 0x80) * 64 + (b3 - 0x80), rest2)
            else none
        | _ => none
      else none

/-- The strict UTF-8 decoding loop, fuel-driven so that it is structurally
recursive; each step consumes at least one byte, so the byte count is enough
fuel. -/
def utf8DecodeGo : Nat → List Nat → Option (List Char)
  | _, [] => some []
  | 0, _ :: _ => none
  | fuel + 1, b :: tl =>
      match utf8DecodeStep (b :: tl) with
      | some (n, rest2) =>
          (utf8DecodeGo fuel rest2).map (fun cs => Char.ofNat n :: cs)
      | none => none

/-- Strict UTF-8 decoding of a whole byte list (`bytes.decode("utf-8")`). -/
def utf8Decode (bs : List Nat) : Option (List Char) :=
  utf8DecodeGo bs.length bs

/-- The text decoding step of `recv_text`
(`payload.decode("utf-8")` guarded by `try/except` returning `""`). -/
def pyDecodeUtf8 (bs : List Nat) : String :=
  match utf8Decode bs with
  | some cs => String.mk cs
  | none => ""

/-- One full `recv_text` call at the string level: `none` models the Python
`None` end-of-stream return, `some (msg, rest)` a returned string (empty for
control frames) plus the unconsumed stream. -/
def recvText (s : List Nat) : Option (String × List Nat) :=
  match recvFrame s with
  | .closed => none
  | .ctrl _ rest => some ("", rest)
  | .text payload rest => some (pyDecodeUtf8 payload, rest)

/-! The upgrade handshake `_upgrade_ws`: executable SHA-1 (FIPS 180-1, the
semantics of `hashlib.sha1`) and standard base64 (`base64.b64encode`). -/

/-- Left rotation of a 32-bit word. -/
def rotl32 (k x : Nat) : Nat :=
  ((x <<< k) ||| (x >>> (32 - k))) % 4294967296

/-- SHA-1 message padding: a `0x80` byte, zeros up to 56 mod 64, then the
bit length as a 64-bit big-endian value. -/
def sha1Pad (msg : List Nat) : List Nat :=
  let len := msg.length
  msg ++ 0x80 :: List.replicate ((119 - len % 64) % 64) 0 ++ beBytes 8 (8 * len)

/-- Split a byte list into 64-byte chunks (fuel-driven so that it reduces
by evaluation; the fuel is an upper bound on the number of chunks). -/
def chunksGo : Nat → List Nat → List (List Nat)
  | 0, _ => []
  | _, [] => []
  | fuel + 1, l => l.take 64 :: chunksGo fuel (l.drop 64)

/-- Split a padded message into its 64-byte blocks. -/
def chunks64 (l : List Nat) : List (List Nat) := chunksGo (l.length + 1) l

/-- The sixteen 32-bit big-endian words of one 64-byte block. -/
def chunkWords (chunk : List Nat) : List Nat :=
  (List.range 16).map (fun i => beVal ((chunk.drop (4 * i)).take 4))

/-- Extension of the 16-word block to the 80-word message schedule. -/
def extendWords : Nat → List Nat → List Nat
  | 0, w => w
  | k + 1, w =>
      let n := w.length
      extendWords k (w ++ [rotl32 1
        ((w.getD (n - 3) 0) ^^^ (w.getD (n - 8) 0) ^^^
         (w.getD (n - 14) 0) ^^^ (w.getD (n - 16) 0))])

/-- The 80-word SHA-1 message schedule of one block. -/
def sha1Schedule (chunk : List Nat) : List Nat := extendWords 64 (chunkWords chunk)

/-- The SHA-1 round function. -/
def sha1F (i b c d : Nat) : Nat :=
  if i < 20 then (b &&& c) ||| ((b ^^^ 0xFFFFFFFF) &&& d)
  else if i < 40 then b ^^^ c ^^^ d
  else if i < 60 then (b &&& c) ||| (b &&& d) ||| (c &&& d)
  else b ^^^ c ^^^ d

/-- The SHA-1 round constants. -/
def sha1K (i : Nat) : Nat :=
  if i < 20 then 0x5A827999
  else if i < 40 then 0x6ED9EBA1
  else if i < 60 then 0x8F1BBCDC
  else 0xCA62C1D6

/-- The five 32-bit working registers of SHA-1. -/
structure Sha1State where
  a : Nat
  b : Nat
  c : Nat
  d : Nat
  e : Nat
deriving Repr, Inhabited

/-- The SHA-1 initialization vector. -/
def sha1Init : Sha1State :=
  ⟨0x67452301, 0xEFCDAB89, 0x98BADCFE, 0x10325476, 0xC3D2E1F0⟩

/-- The 80 SHA-1 rounds over an indexed message schedule. -/
def sha1Rounds (st : Sha1State) (iw : List (Nat × Nat)) : Sha1State :=
  iw.foldl (fun s p =>
    let temp :=
      (rotl32 5 s.a + sha1F p.fst s.b s.c s.d + s.e + sha1K p.fst + p.snd) % 4294967296
    { a := temp, b := s.a, c := rotl32 30 s.b, d := s.c, e := s.d }) st

/-- Processing of one 64-byte block. -/
def sha1Chunk (h : Sha1State) (chunk : List Nat) : Sha1State :=
  let s := sha1Rounds h (sha1Schedule chunk).enum
  { a := (h.a + s.a) % 4294967296
    b := (h.b + s.b) % 4294967296
    c := (h.c + s.c) % 4294967296
    d := (h.d + s.d) % 4294967296
    e := (h.e + s.e) % 4294967296 }

/-- The SHA-1 digest (20 bytes) of a byte string. -/
def sha1 (msg : List Nat) : List Nat :=
  let hh := (chunks64 (sha1Pad msg)).foldl sha1Chunk sha1Init
  beBytes 4 hh.a ++ beBytes 4 hh.b ++ beBytes 4 hh.c ++ beBytes 4 hh.d ++ beBytes 4 hh.e

/-- The standard base64 alphabet character for a 6-bit value. -/
def b64Char (n : Nat) : Char :=
  "ABCDEFGHIJKLMNOPQRSTUVWXYZabcdefghijklmnopqrstuvwxyz0123456789+/".data.getD
    n (Char.ofNat 65)

/-- Standard base64 encoding (`base64.b64encode`) with `=` padding. -/
def b64Encode : List Nat → List Char
  | [] => []
  | [b0] =>
      [b64Char (b0 / 4), b64Char (b0 % 4 * 16), Char.ofNat 61, Char.ofNat 61]
  | [b0, b1] =>
      [b64Char (b0 / 4), b64Char (b0 % 4 * 16 + b1 / 16),
       b64Char (b1 % 16 * 4), Char.ofNat 61]
  | b0 :: b1 :: b2 :: rest =>
      b64Char (b0 / 4) :: b64Char (b0 % 4 * 16 + b1 / 16) ::
      b64Char (b1 % 16 * 4 + b2 / 64) :: b64Char (b2 % 64) :: b64Encode rest

/-- Base64 encoding to a string. -/
def b64EncodeStr (bs : List Nat) : String := String.mk (b64Encode bs)

/-- The RFC 6455 GUID constant `WS_GUID`. -/
def wsGuid : String := "258EAFA5-E914-47DA-95CA-C5AB0DC85B11"

/-- The accept token computed by `_upgrade_ws`:
`base64.b64encode(hashlib.sha1((key + WS_GUID).encode("utf-8")).digest())`. -/
def wsAccept (key : String) : String :=
  b64EncodeStr (sha1 (strUtf8 (key ++ wsGuid)))

/-- Outcome of `_upgrade_ws`: an HTTP 400 JSON rejection, or the
101 Switching Protocols response carrying the `Sec-WebSocket-Accept`
token. -/
inductive UpgradeOutcome where
  | reject (status : Int) (error : String)
  | switch (status : Int) (accept : String)
deriving Repr, Inhabited

/-- The handshake `_upgrade_ws`: the `Sec-WebSocket-Key` header value (absent
modelled as `none`) is stripped; an empty key is rejected with 400, any other
key gets the 101 response with the accept token. -/
def upgradeWs (keyHeader : Option String) : UpgradeOutcome :=
  let key := pyStrip (keyHeader.getD "")
  if key = "" then .reject 400 "missing_ws_key"
  else .switch 101 (wsAccept key)

/-! Concrete fixtures used by the witness theorems (the configuration mirrors
`DEFAULT_CONFIG`). -/

/-- The default configuration values of `DEFAULT_CONFIG` (empty auth token). -/
def cfg0 : Config :=
  { auth_token := "", max_queue := 200, max_logs := 300, max_results := 200,
    resend_after := 5 }

/-- A queued action fixture. -/
def qaFix (theId : String) (act : String) (ttl ts sent : Int) : QueuedAction :=
  { id := theId, action := act, payload := .jobj [], ttl := ttl, ts := ts,
    sent_ts := sent }

/-- A device fixture with a given queue and result list. -/
def devFix (theId : String) (q : List QueuedAction) (rs : List ResultEntry)
    (ws : Option WsConn) : Device :=
  { id := theId, created_at := 0, last_seen := 0, ip := "", info := [],
    queue := q, logs := [], results := rs, ws := ws }

/-- A one-device registry fixture. -/
def stFix (theId : String) (dv : Device) : BridgeState :=
  { devices := [(theId, dv)], last_device_id := none }

/-- The device fixture for the TTL/resend witness: one fresh pending
action. -/
def devC2 : Device := devFix "dev1" [qaFix "q1" "toast" 300 0 0] [] none

/-- A minimal sync payload naming only the device. -/
def fieldsC2 : List (String × JVal) := [("device_id", .jstr "dev1")]

/-- The result-entry object `\x7bid: "a1", ok: true\x7d` as a parsed JSON
value. -/
def rC4 : List (String × JVal) := [("id", .jstr "a1"), ("ok", .jbool true)]

/-- A `results` list carrying only `rC4`. -/
def rsC4 : List JVal := [.jobj rC4]

/-- The device fixture for the ack-implies-prune witness: two pending
actions. -/
def devC4 : Device :=
  devFix "dev1" [qaFix "a1" "toast" 300 0 0, qaFix "a2" "beep" 300 0 0] [] none

/-- The sync payload fields for the ack-implies-prune witness. -/
def fieldsC4 : List (String × JVal) :=
  [("device_id", .jstr "dev1"), ("results", .jarr rsC4)]

/-- A successful result entry with action id `x1`. -/
def resA : ResultEntry :=
  { ts := 1, id := "x1", ok := true, action := "toast", data := .jnull, error := "" }

/-- A second, failed result entry with the same action id `x1`. -/
def resB : ResultEntry :=
  { ts := 2, id := "x1", ok := false, action := "toast", data := .jnull,
    error := "failed" }

/-- A device holding two result entries with the same action id. -/
def devC9dup : Device := devFix "dev1" [] [resA, resB] none

/-- A device holding a single result entry. -/
def devC9 : Device := devFix "dev1" [] [resA] none

/-- A small-capacity configuration for the eviction witness. -/
def cfgC5 : Config :=
  { auth_token := "", max_queue := 2, max_logs := 300, max_results := 200,
    resend_after := 5 }

/-- Three enqueue requests against a capacity-2 queue. -/
def reqsC5 : List EnqReq :=
  [{ freshId := "i1", action := "a", payload := none, ttl := 300, now := 1 },
   { freshId := "i2", action := "a", payload := none, ttl := 300, now := 2 },
   { freshId := "i3", action := "a", payload := none, ttl := 300, now := 3 }]

/-! Helper lemmas about the registry and the device-record updates. -/

theorem capList_eq_drop {α : Type} (cap : Nat) (l : List α) (hC : cap ≠ 0) :
    capList cap l = l.drop (l.length - cap) := by
  unfold capList keepLast
  split
  · simp [hC]
  · have : l.length - cap = 0 := by omega
    simp [this]

@[simp] theorem logDevice_queue (cfg : Config) (d : Device) (t : JVal) (lv : String)
    (now : Int) : (logDevice cfg d t lv now).queue = d.queue := rfl

@[simp] theorem logDevice_info (cfg : Config) (d : Device) (t : JVal) (lv : String)
    (now : Int) : (logDevice cfg d t lv now).info = d.info := rfl

@[simp] theorem logDevice_results (cfg : Config) (d : Device) (t : JVal) (lv : String)
    (now : Int) : (logDevice cfg d t lv now).results = d.results := rfl

@[simp] theorem appendResults_queue (cfg : Config) (d : Device) (rs : List JVal)
    (now : Int) : (appendResults cfg d rs now).queue = d.queue := by
  unfold appendResults; split <;> rfl

@[simp] theorem appendResults_info (cfg : Config) (d : Device) (rs : List JVal)
    (now : Int) : (appendResults cfg d rs now).info = d.info := by
  unfold appendResults; split <;> rfl

@[simp] theorem pruneQueue_info (d : Device) (acks : List String) (now : Int) :
    (pruneQueue d acks now).info = d.info := rfl

@[simp] theorem pruneQueue_results (d : Device) (acks : List String) (now : Int) :
    (pruneQueue d acks now).results = d.results := rfl

theorem find?_update (l : List (String × Device)) (deviceId : String) (d : Device)
    (h : (l.find? (fun kv => kv.fst == deviceId)).isSome) :
    (l.map (fun kv => if kv.fst == deviceId then (kv.fst, d) else kv)).find?
      (fun kv => kv.fst == deviceId) = some (deviceId, d) := by
  induction l with
  | nil => simp [List.find?] at h
  | cons kv rest ih =>
      by_cases hk : (kv.fst == deviceId) = true
      · have heq : kv.fst = deviceId := by simpa using hk
        simp [List.find?_cons, hk, heq]
      · simp only [List.find?_cons, hk] at h
        simp only [List.map_cons, hk, if_false, Bool.false_eq_true, List.find?_cons]
        exact ih (by simpa [hk] using h)

theorem lookupDevice_setDevice_self (st : BridgeState) (deviceId : String)
    (d : Device) (h : (lookupDevice st deviceId).isSome) :
    lookupDevice (setDevice st deviceId d) deviceId = some d := by
  unfold lookupDevice setDevice
  unfold lookupDevice at h
  rw [find?_update st.devices deviceId d (by
    rcases hf : st.devices.find? (fun kv => kv.fst == deviceId) with _ | kv
    · rw [hf] at h; simp at h
    · simp [hf])]
  rfl

theorem find?_append_of_none {α : Type} (l1 l2 : List α) (p : α → Bool)
    (h : l1.find? p = none) : (l1 ++ l2).find? p = l2.find? p := by
  induction l1 with
  | nil => rfl
  | cons x rest ih =>
      by_cases hx : p x = true
      · simp [List.find?_cons, hx] at h
      · simp only [List.find?_cons, hx] at h
        simp only [List.cons_append, List.find?_cons, hx]
        exact ih h

theorem lookupDevice_getDevice (st : BridgeState) (deviceId : String) (now : Int) :
    lookupDevice (getDevice st deviceId now).2 deviceId =
      some (getDevice st deviceId now).1 := by
  unfold getDevice
  rcases h : lookupDevice st deviceId with _ | dv
  · simp only
    unfold lookupDevice at h ⊢
    have hfind : st.devices.find? (fun kv => kv.fst == deviceId) = none := by
      rcases hf : st.devices.find? (fun kv => kv.fst == deviceId) with _ | kv
      · exact hf
      · rw [hf] at h; simp at h
    rw [find?_append_of_none _ _ _ hfind]
    simp [List.find?]
  · simp only [h]

theorem lookupDevice_getDevice_isSome (st : BridgeState) (deviceId : String)
    (now : Int) : (lookupDevice (getDevice st deviceId now).2 deviceId).isSome := by
  rw [lookupDevice_getDevice]; rfl

theorem getDevice_of_lookup (st : BridgeState) (deviceId : String) (now : Int)
    (dv : Device) (h : lookupDevice st deviceId = some dv) :
    getDevice st deviceId now = (dv, st) := by
  unfold getDevice
  rw [h]

theorem lookupDevice_last_update (st : BridgeState) (deviceId lid : String) :
    lookupDevice { st with last_device_id := some lid } deviceId =
      lookupDevice st deviceId := rfl

@[simp] theorem QueuedAction.out_id (it : QueuedAction) : it.out.id = it.id := rfl

@[simp] theorem QueuedAction.out_ts (it : QueuedAction) : it.out.ts = it.ts := rfl

@[simp] theorem QueuedAction.out_ttl (it : QueuedAction) : it.out.ttl = it.ttl := rfl

/-- The updated queue returned by `_collect_actions` is the input queue with
`sent_ts` refreshed on every due item, in place. -/
theorem collectActions_fst (cfg : Config) (now : Int) (q : List QueuedAction) :
    (collectActions cfg now q).1 =
      q.map (fun it =>
        if it.sent_ts != 0 && decide (now - it.sent_ts < cfg.resend_after) then it
        else { it with sent_ts := now }) := by
  induction q with
  | nil => rfl
  | cons it rest ih =>
      simp only [collectActions, List.map_cons]
      split <;> simp [ih]

/-- The actions returned by `_collect_actions` are the due items of the input
queue, in queue order. -/
theorem collectActions_snd (cfg : Config) (now : Int) (q : List QueuedAction) :
    (collectActions cfg now q).2 =
      (q.filter (fun it =>
        !(it.sent_ts != 0 && decide (now - it.sent_ts < cfg.resend_after)))).map
        QueuedAction.out := by
  induction q with
  | nil => rfl
  | cons it rest ih =>
      simp only [collectActions, List.filter_cons]
      rcases h : it.sent_ts != 0 && decide (now - it.sent_ts < cfg.resend_after) with _ | _
      · simp [h, ih]
      · simp [h, ih]

/-- Collecting preserves the id sequence of the queue. -/
theorem collectActions_fst_ids (cfg : Config) (now : Int) (q : List QueuedAction) :
    (collectActions cfg now q).1.map (fun it => it.id) = q.map (fun it => it.id) := by
  rw [collectActions_fst, List.map_map]
  apply List.map_congr_left
  intro it _
  simp only [Function.comp]
  split <;> rfl

/-- C3: when the configured auth token is non-empty (the code compares the
stripped configuration value, so the token is assumed given in stripped
form), every `handle_sync` call whose payload `token` field is missing or
differs from the configured token returns status 401 with error code
`unauthorized` and leaves the entire registry state unchanged. -/
theorem C3_auth_gate_rejects_and_preserves_state (cfg : Config) (st : BridgeState)
    (fields : List (String × JVal)) (ip : String) (now : Int)
    (htrim : pyStrip cfg.auth_token = cfg.auth_token)
    (hne : cfg.auth_token ≠ "")
    (hmiss : jget fields "token" ≠ some (.jstr cfg.auth_token)) :
    handleSync cfg st (.jobj fields) ip now =
      { status := 401, resp := .fail "unauthorized", state := st } := by
  have hTM : (match jget fields "token" with
      | some (.jstr s) => s == cfg.auth_token
      | _ => false) = false := by
    rcases h : jget fields "token" with _ | v
    · rfl
    · cases v <;> simp only
      case jstr s =>
        rw [beq_eq_false_iff_ne]
        intro heq
        exact hmiss (heq ▸ h)
  have hne' : (cfg.auth_token != "") = true := by simpa using hne
  simp only [handleSync, htrim, hTM, hne', Bool.not_false, Bool.and_true, if_true]

/-- Preservation of the info field by the log-ingestion fold of
`handle_sync`. -/
theorem foldLogs_info (cfg : Config) (now : Int) (entries : List JVal) (d : Device) :
    (entries.foldl (fun dd entry =>
      let text := logTextOf entry
      if text.truthy then logDevice cfg dd text "info" now else dd) d).info = d.info := by
  induction entries generalizing d with
  | nil => rfl
  | cons e rest ih =>
      simp only [List.foldl_cons]
      rw [ih]
      split <;> rfl

/-- Preservation of the queue field by the log-ingestion fold of
`handle_sync`. -/
theorem foldLogs_queue (cfg : Config) (now : Int) (entries : List JVal) (d : Device) :
    (entries.foldl (fun dd entry =>
      let text := logTextOf entry
      if text.truthy then logDevice cfg dd text "info" now else dd) d).queue = d.queue := by
  induction entries generalizing d with
  | nil => rfl
  | cons e rest ih =>
      simp only [List.foldl_cons]
      rw [ih]
      split <;> rfl

/-- Preservation of the results field by the log-ingestion fold of
`handle_sync`. -/
theorem foldLogs_results (cfg : Config) (now : Int) (entries : List JVal) (d : Device) :
    (entries.foldl (fun dd entry =>
      let text := logTextOf entry
      if text.truthy then logDevice cfg dd text "info" now else dd) d).results = d.results := by
  induction entries generalizing d with
  | nil => rfl
  | cons e rest ih =>
      simp only [List.foldl_cons]
      rw [ih]
      split <;> rfl

@[simp] theorem infoStep_queue (dev : Device) (iv : Option JVal) :
    (infoStep dev iv).queue = dev.queue := by
  unfold infoStep
  rcases iv with _ | v
  · rfl
  · cases v <;> rfl

@[simp] theorem infoStep_results (dev : Device) (iv : Option JVal) :
    (infoStep dev iv).results = dev.results := by
  unfold infoStep
  rcases iv with _ | v
  · rfl
  · cases v <;> rfl

@[simp] theorem logsStep_queue (cfg : Config) (now : Int) (dev : Device)
    (lv : Option JVal) : (logsStep cfg now dev lv).queue = dev.queue := by
  unfold logsStep
  rcases lv with _ | v
  · rfl
  · cases v <;> first
      | rfl
      | exact foldLogs_queue cfg now _ dev

@[simp] theorem logsStep_info (cfg : Config) (now : Int) (dev : Device)
    (lv : Option JVal) : (logsStep cfg now dev lv).info = dev.info := by
  unfold logsStep
  rcases lv with _ | v
  · rfl
  · cases v <;> first
      | rfl
      | exact foldLogs_info cfg now _ dev

@[simp] theorem logsStep_results (cfg : Config) (now : Int) (dev : Device)
    (lv : Option JVal) : (logsStep cfg now dev lv).results = dev.results := by
  unfold logsStep
  rcases lv with _ | v
  · rfl
  · cases v <;> first
      | rfl
      | exact foldLogs_results cfg now _ dev

@[simp] theorem resultsStep_queue (cfg : Config) (now : Int) (dev : Device)
    (rv : Option JVal) : (resultsStep cfg now dev rv).queue = dev.queue := by
  unfold resultsStep
  rcases rv with _ | v
  · rfl
  · cases v <;> simp [appendResults_queue]

@[simp] theorem resultsStep_info (cfg : Config) (now : Int) (dev : Device)
    (rv : Option JVal) : (resultsStep cfg now dev rv).info = dev.info := by
  unfold resultsStep
  rcases rv with _ | v
  · rfl
  · cases v <;> simp [appendResults_info]

/-- The auth gate of `handle_sync` passes when no token is configured or the
payload carries the configured (stripped) token. -/
theorem tokenGate_false (cfg : Config) (fields : List (String × JVal))
    (htok : pyStrip cfg.auth_token = "" ∨
      jget fields "token" = some (.jstr (pyStrip cfg.auth_token))) :
    (pyStrip cfg.auth_token != "" &&
      !(match jget fields "token" with
        | some (.jstr s) => s == pyStrip cfg.auth_token
        | _ => false)) = false := by
  rcases htok with h | h
  · simp [h]
  · rw [h]
    simp

/-- The device id computed by `handle_sync` for a payload whose `device_id`
field is a non-empty already-stripped string. -/
theorem deviceId_of_jstr (fields : List (String × JVal)) (d : String)
    (hd : jget fields "device_id" = some (.jstr d))
    (hstrip : pyStrip d = d) (hne : d ≠ "") :
    pyStrip (pyStrOrEmpty (jget fields "device_id")) = d := by
  rw [hd]
  simp only [pyStrOrEmpty, JVal.truthy, pyStr]
  rw [if_pos (by simpa using hne)]
  exact hstrip

/-- Lookup of the synced device in the state written back by `handle_sync`
(the device is present after the lookup-or-create step, so the write-back is
visible). -/
theorem lookupDevice_after_set (st : BridgeState) (d : String) (now : Int)
    (dv : Device) (last : Option String) :
    lookupDevice ⟨(setDevice (getDevice st d now).2 d dv).devices, last⟩ d =
      some dv := by
  have hsome : ((getDevice st d now).2.devices.find? (fun kv => kv.fst == d)).isSome := by
    have h2 := lookupDevice_getDevice_isSome st d now
    unfold lookupDevice at h2
    simpa using h2
  unfold lookupDevice setDevice
  dsimp only
  rw [find?_update _ _ _ hsome]
  rfl

/-- C1 (amended): a `handle_sync` call whose payload carries an object-valued
`info` field REPLACES the info map of the device wholesale with the payload
object; no merging with the previous map happens, so previous top-level
fields absent from the payload are dropped. -/
theorem C1_info_replaced (cfg : Config) (st : BridgeState)
    (fields : List (String × JVal)) (ip : String) (now : Int) (d : String)
    (infoFields : List (String × JVal))
    (htok : pyStrip cfg.auth_token = "" ∨
      jget fields "token" = some (.jstr (pyStrip cfg.auth_token)))
    (hd : jget fields "device_id" = some (.jstr d))
    (hstrip : pyStrip d = d) (hne : d ≠ "")
    (hinfo : jget fields "info" = some (.jobj infoFields)) :
    (lookupDevice (handleSync cfg st (.jobj fields) ip now).state d).map
      Device.info = some infoFields := by
  have htokF := tokenGate_false cfg fields htok
  have hdid := deviceId_of_jstr fields d hd hstrip hne
  simp only [handleSync, htokF, Bool.false_eq_true, if_false, hdid, hne, hinfo]
  rw [lookupDevice_after_set]
  simp [pruneQueue_info, resultsStep_info, logsStep_info, infoStep]

/-- Witness for C1 (amended) at a concrete input. -/
theorem C1_witness :
    (lookupDevice (handleSync
      { auth_token := "", max_queue := 200, max_logs := 300,
        max_results := 200, resend_after := 5 }
      { devices := [("dev1",
          { id := "dev1", created_at := 0, last_seen := 0, ip := "",
            info := [("a", .jint 1)], queue := [], logs := [], results := [],
            ws := none })],
        last_device_id := none }
      (.jobj [("device_id", .jstr "dev1"), ("info", .jobj [("b", .jint 2)])])
      "9.9.9.9" 10).state "dev1").map Device.info = some [("b", .jint 2)] :=
  C1_info_replaced _ _ _ _ _ _ _ (Or.inl (by decide)) rfl (by decide) (by decide) rfl

/-- Counterexample to C1 as stated: with a previous info map containing the
top-level field `a` and a payload info object not containing `a`, the field
`a` is NOT retained after the sync (the claim requires every previous
top-level field not present in the payload info to be retained). -/
theorem C1_counterexample :
    (lookupDevice (handleSync
      { auth_token := "", max_queue := 200, max_logs := 300,
        max_results := 200, resend_after := 5 }
      { devices := [("dev1",
          { id := "dev1", created_at := 0, last_seen := 0, ip := "",
            info := [("a", .jint 1)], queue := [], logs := [], results := [],
            ws := none })],
        last_device_id := none }
      (.jobj [("device_id", .jstr "dev1"), ("info", .jobj [("b", .jint 2)])])
      "9.9.9.9" 10).state "dev1").map (fun dv => jget dv.info "a") = some none := by
  rfl

/-- Membership in the acknowledgement id set coming from the implicit-ack
side: a dict element of the `results` list with a truthy string id
contributes its id. -/
theorem mem_ackIdsOf_results (ack : Option JVal) (rs : List JVal)
    (r : List (String × JVal)) (A : String)
    (hr : JVal.jobj r ∈ rs) (hid : jget r "id" = some (.jstr A)) (hA : A ≠ "") :
    A ∈ ackIdsOf ack (some (.jarr rs)) := by
  unfold ackIdsOf
  apply List.mem_append_right
  apply List.mem_filterMap.mpr
  refine ⟨.jobj r, hr, ?_⟩
  simp only [hid, JVal.truthy, pyStr]
  simp [hA]

/-- Pruning with an ack set removes every queued action whose id is in the
set. -/
theorem pruneQueue_ack_not_mem (d : Device) (acks : List String) (now : Int)
    (A : String) (hA : A ∈ acks) :
    A ∉ (pruneQueue d acks now).queue.map (fun it => it.id) := by
  unfold pruneQueue
  intro hmem
  simp only [List.mem_map] at hmem
  obtain ⟨it, hit, hid⟩ := hmem
  rw [List.mem_filter] at hit
  have hcont : acks.contains it.id = false := by
    have := hit.2
    simp only [Bool.and_eq_true, Bool.not_eq_true'] at this
    exact this.1
  rw [hid] at hcont
  have h3 : List.elem A acks = true := List.elem_iff.mpr hA
  rw [show List.contains acks A = List.elem A acks from rfl, h3] at hcont
  exact Bool.noConfusion hcont

/-- C4: for a device with a pending action of id A, a `handle_sync` call
whose payload carries a `results` list containing an object entry with id A
but no `ack` list removes action A from the pending queue (a reported result
is an implicit acknowledgement), and the ids of the surviving queue are a
subsequence of the previous queue ids (relative order preserved). -/
theorem C4_result_acks_and_prunes (cfg : Config) (st : BridgeState)
    (fields : List (String × JVal)) (ip : String) (now : Int) (d A : String)
    (dev : Device) (rs : List JVal) (r : List (String × JVal))
    (htok : pyStrip cfg.auth_token = "" ∨
      jget fields "token" = some (.jstr (pyStrip cfg.auth_token)))
    (hd : jget fields "device_id" = some (.jstr d))
    (hstrip : pyStrip d = d) (hne : d ≠ "")
    (hdev : lookupDevice st d = some dev)
    (_hack : jget fields "ack" = none)
    (hres : jget fields "results" = some (.jarr rs))
    (hr : JVal.jobj r ∈ rs)
    (hid : jget r "id" = some (.jstr A)) (hA : A ≠ "") :
    ∃ idsAfter,
      (lookupDevice (handleSync cfg st (.jobj fields) ip now).state d).map
        (fun dv => dv.queue.map (fun it => it.id)) = some idsAfter ∧
      A ∉ idsAfter ∧
      idsAfter.Sublist (dev.queue.map (fun it => it.id)) := by
  have htokF := tokenGate_false cfg fields htok
  have hdid := deviceId_of_jstr fields d hd hstrip hne
  simp only [handleSync, htokF, Bool.false_eq_true, if_false, hdid, hne, hres]
  rw [lookupDevice_after_set]
  rw [getDevice_of_lookup st d now dev hdev]
  refine ⟨_, rfl, ?_, ?_⟩
  · dsimp only
    rw [collectActions_fst_ids]
    exact pruneQueue_ack_not_mem _ _ _ A (mem_ackIdsOf_results _ rs r A hr hid hA)
  · dsimp only
    rw [collectActions_fst_ids]
    have hsub : ∀ (l : List QueuedAction) (p : QueuedAction → Bool),
        ((l.filter p).map (fun it => it.id)).Sublist (l.map (fun it => it.id)) :=
      fun l p => (l.filter_sublist).map _
    simp only [pruneQueue, resultsStep_queue, logsStep_queue, infoStep_queue]
    exact hsub _ _

/-- Witness for C4 at a concrete input: a queue with two pending actions, a
result reported for the first. -/
theorem C4_witness :
    ∃ idsAfter,
      (lookupDevice (handleSync cfg0 (stFix "dev1" devC4) (.jobj fieldsC4)
        "1.1.1.1" 5).state "dev1").map
        (fun dv => dv.queue.map (fun it => it.id)) = some idsAfter ∧
      "a1" ∉ idsAfter ∧
      idsAfter.Sublist (devC4.queue.map (fun it => it.id)) :=
  C4_result_acks_and_prunes cfg0 (stFix "dev1" devC4) fieldsC4 "1.1.1.1" 5
    "dev1" "a1" devC4 rsC4 rC4
    (Or.inl (by decide)) rfl (by decide) (by decide) rfl rfl rfl
    (List.mem_cons_self _ _) rfl (by decide)

/-- Counterexample to C2 as stated: `_collect_actions` itself never checks
the TTL, and the out-of-band push path (`queue_action` with a live bound
connection) collects without pruning first. A device holds an action `old`
enqueued with `ttl = 1` at time 0 and never acknowledged; at time 10 (so
`now - created = 10 > 1`) an unrelated enqueue pushes BOTH the expired
action `old` and the new action, contradicting the claim that `old` is
never returned by the collect path once `now - created > 1`. -/
theorem C2_counterexample :
    (queueAction cfg0
      (stFix "dev1" (devFix "dev1" [qaFix "old" "toast" 1 0 0] []
        (some { alive := true })))
      "dev1" "newact" none 300 10 "fresh").pushed.map (fun a => a.id) =
      ["old", "fresh"] ∧
    (10 : Int) - (qaFix "old" "toast" 1 0 0).ts > (qaFix "old" "toast" 1 0 0).ttl :=
  ⟨rfl, by decide⟩

/-- C2 (amended): on the sync path (`handle_sync`), where `_prune_queue` runs
immediately before `_collect_actions`, every returned action satisfies the
TTL bound in its non-strict form `now - creation ≤ ttl` (pruning removes an
action only when `now - creation > ttl`) and comes from a queue entry that
was due by the resend gate (`last-sent = 0` or
`now - last-sent ≥ resend-after`). The TTL check lives in the prune step,
not in `_collect_actions`, so the pruneless push path can still deliver an
expired action. -/
theorem C2_sync_ttl_and_resend_gate (cfg : Config) (st : BridgeState)
    (fields : List (String × JVal)) (ip : String) (now : Int) (d : String)
    (dev : Device)
    (htok : pyStrip cfg.auth_token = "" ∨
      jget fields "token" = some (.jstr (pyStrip cfg.auth_token)))
    (hd : jget fields "device_id" = some (.jstr d))
    (hstrip : pyStrip d = d) (hne : d ≠ "")
    (hdev : lookupDevice st d = some dev) :
    ∃ acts,
      (handleSync cfg st (.jobj fields) ip now).resp = .good d (1000 * now) acts ∧
      ∀ a ∈ acts, now - a.ts ≤ a.ttl ∧
        ∃ it, it ∈ dev.queue ∧ it.id = a.id ∧ it.ts = a.ts ∧ it.ttl = a.ttl ∧
          (it.sent_ts = 0 ∨ cfg.resend_after ≤ now - it.sent_ts) := by
  have htokF := tokenGate_false cfg fields htok
  have hdid := deviceId_of_jstr fields d hd hstrip hne
  simp only [handleSync, htokF, Bool.false_eq_true, if_false, hdid, hne]
  rw [getDevice_of_lookup st d now dev hdev]
  refine ⟨_, rfl, ?_⟩
  intro a ha
  rw [collectActions_snd] at ha
  obtain ⟨it, hit, rfl⟩ := List.mem_map.mp ha
  rw [List.mem_filter] at hit
  obtain ⟨hitQ, hgate⟩ := hit
  simp only [pruneQueue, resultsStep_queue, logsStep_queue, infoStep_queue] at hitQ
  rw [List.mem_filter] at hitQ
  obtain ⟨hmemQ, hprune⟩ := hitQ
  have httl : now - it.ts ≤ it.ttl := by
    by_contra hgt
    push_neg at hgt
    have hdec : decide (now - it.ts > it.ttl) = true := by
      simp only [decide_eq_true_eq]
      omega
    rw [hdec] at hprune
    simp at hprune
  have hdue : it.sent_ts = 0 ∨ cfg.resend_after ≤ now - it.sent_ts := by
    by_cases hz : it.sent_ts = 0
    · exact Or.inl hz
    · right
      by_contra hlt
      push_neg at hlt
      have hdec : (it.sent_ts != 0 && decide (now - it.sent_ts < cfg.resend_after)) = true := by
        simp [hz, hlt]
      rw [hdec] at hgate
      simp at hgate
  exact ⟨by simpa using httl, it, hmemQ, rfl, rfl, rfl, hdue⟩

/-- Witness for C2 (amended) at a concrete input. -/
theorem C2_witness :
    ∃ acts,
      (handleSync cfg0 (stFix "dev1" devC2) (.jobj fieldsC2) "ip" 5).resp =
        .good "dev1" (1000 * 5) acts ∧
      ∀ a ∈ acts, (5 : Int) - a.ts ≤ a.ttl ∧
        ∃ it, it ∈ devC2.queue ∧ it.id = a.id ∧ it.ts = a.ts ∧ it.ttl = a.ttl ∧
          (it.sent_ts = 0 ∨ cfg0.resend_after ≤ 5 - it.sent_ts) :=
  C2_sync_ttl_and_resend_gate cfg0 (stFix "dev1" devC2) fieldsC2 "ip" 5 "dev1"
    devC2 (Or.inl (by decide)) rfl (by decide) (by decide) rfl

/-- Capacity truncation commutes with mapping. -/
theorem capList_map {α β : Type} (c : Nat) (l : List α) (f : α → β) :
    (capList c l).map f = capList c (l.map f) := by
  unfold capList keepLast
  simp only [List.length_map]
  split
  · split
    · simp
    · simp [List.map_drop]
  · rfl

/-- The queue id sequence seen through the lookup-or-create step. -/
theorem getDevice_fst_queueIds (st : BridgeState) (d : String) (now : Int) :
    (getDevice st d now).1.queue.map (fun it => it.id) = queueIds st d := by
  unfold queueIds getDevice
  rcases h : lookupDevice st d with _ | dv
  · simp [newDevice]
  · simp [h]

/-- One `queue_action` call appends the fresh id to the queue id sequence and
truncates it to capacity, regardless of whether a push connection is
bound. -/
theorem queueAction_queueIds (cfg : Config) (st : BridgeState) (d : String)
    (act : String) (p : Option JVal) (ttl now : Int) (fid : String)
    (hstrip : pyStrip d = d) (hne : d ≠ "") (hnl : d ≠ "last") :
    queueIds (queueAction cfg st d act p ttl now fid).state d =
      capList cfg.max_queue (queueIds st d ++ [fid]) := by
  have h1 : (d == "last") = false := by simpa using hnl
  simp only [queueAction, hstrip, h1, Bool.false_eq_true, if_false, hne]
  split
  case _ w heq =>
    split
    case _ halive =>
      unfold queueIds
      rw [lookupDevice_setDevice_self _ _ _ (lookupDevice_getDevice_isSome st d now)]
      dsimp only
      rw [collectActions_fst_ids]
      simp only [logDevice_queue]
      rw [capList_map]
      simp only [List.map_append, List.map_cons, List.map_nil]
      rw [getDevice_fst_queueIds]
      rfl
    case _ halive =>
      unfold queueIds
      rw [lookupDevice_setDevice_self _ _ _ (lookupDevice_getDevice_isSome st d now)]
      dsimp only
      simp only [logDevice_queue]
      rw [capList_map]
      simp only [List.map_append, List.map_cons, List.map_nil]
      rw [getDevice_fst_queueIds]
      rfl
  case _ heq =>
    unfold queueIds
    rw [lookupDevice_setDevice_self _ _ _ (lookupDevice_getDevice_isSome st d now)]
    dsimp only
    simp only [logDevice_queue]
    rw [capList_map]
    simp only [List.map_append, List.map_cons, List.map_nil]
    rw [getDevice_fst_queueIds]
    rfl

/-- Iterated enqueues induce a fold of append-and-truncate steps on the
queue id sequence. -/
theorem enqueueAll_queueIds (cfg : Config) (d : String) (reqs : List EnqReq)
    (hstrip : pyStrip d = d) (hne : d ≠ "") (hnl : d ≠ "last") :
    ∀ st : BridgeState,
      queueIds (enqueueAll cfg st d reqs) d =
        reqs.foldl (fun ids r => capList cfg.max_queue (ids ++ [r.freshId]))
          (queueIds st d) := by
  induction reqs with
  | nil => intro st; rfl
  | cons r rest ih =>
      intro st
      simp only [enqueueAll, List.foldl_cons] at *
      rw [ih]
      rw [queueAction_queueIds cfg st d r.action r.payload r.ttl r.now r.freshId
        hstrip hne hnl]

/-- The append-and-truncate fold keeps exactly the last `C` elements: with a
start segment of length at most `C`, the result is the tail of the whole
sequence past the capacity overflow. -/
theorem foldl_capStep (C : Nat) (hC : C ≠ 0) (l : List String) :
    ∀ acc : List String, acc.length ≤ C →
      l.foldl (fun ids x => capList C (ids ++ [x])) acc =
        (acc ++ l).drop (acc.length + l.length - C) := by
  induction l with
  | nil =>
      intro acc hacc
      simp only [List.foldl_nil, List.length_nil, List.append_nil, Nat.add_zero]
      rw [show acc.length - C = 0 from by omega]
      rfl
  | cons x rest ih =>
      intro acc hacc
      simp only [List.foldl_cons]
      rw [capList_eq_drop _ _ hC]
      rw [ih _ (by simp [List.length_drop]; omega)]
      rw [← List.drop_append_of_le_length (Nat.sub_le _ _)]
      rw [List.drop_drop]
      have hassoc : (acc ++ [x]) ++ rest = acc ++ x :: rest := by simp
      rw [hassoc]
      congr 1
      simp only [List.length_drop, List.length_append, List.length_cons,
        List.length_nil]
      omega

/-- C5: starting from an empty (or absent) queue, enqueuing `capacity + k`
actions with `k ≥ 1` (and no acknowledgement or expiry in between: the
enqueue path never prunes) leaves the pending queue holding exactly the
`capacity` most recently enqueued action ids, in their original relative
order; the oldest `k` ids are dropped. -/
theorem C5_capacity_eviction_fifo (cfg : Config) (st : BridgeState) (d : String)
    (reqs : List EnqReq) (k : Nat)
    (hC : cfg.max_queue ≠ 0)
    (hstrip : pyStrip d = d) (hne : d ≠ "") (hnl : d ≠ "last")
    (hq0 : queueIds st d = [])
    (hlen : reqs.length = cfg.max_queue + k) (hk : 1 ≤ k) :
    queueIds (enqueueAll cfg st d reqs) d =
      (reqs.map (fun r => r.freshId)).drop k := by
  rw [enqueueAll_queueIds cfg d reqs hstrip hne hnl st, hq0]
  rw [← List.foldl_map (fun r : EnqReq => r.freshId)
    (fun ids x => capList cfg.max_queue (ids ++ [x])) reqs []]
  rw [foldl_capStep cfg.max_queue hC _ [] (by simp)]
  simp only [List.nil_append, List.length_nil, List.length_map, Nat.zero_add]
  congr 1
  rw [hlen]
  omega

/-- Witness for C5: three enqueues into a capacity-2 queue keep the last
two ids. -/
theorem C5_witness :
    queueIds (enqueueAll cfgC5 { devices := [], last_device_id := none } "dev1"
      reqsC5) "dev1" = (reqsC5.map (fun r => r.freshId)).drop 1 :=
  C5_capacity_eviction_fifo cfgC5 _ "dev1" reqsC5 1 (by decide) (by decide)
    (by decide) (by decide) rfl rfl (by decide)

/-- Membership of an id in the output of `_collect_actions`, characterized by
the originating queue entry and its resend gate. -/
theorem mem_collect_ids (cfg : Config) (now : Int) (q : List QueuedAction)
    (A : String) :
    A ∈ (collectActions cfg now q).2.map (fun a => a.id) ↔
      ∃ it, it ∈ q ∧ it.id = A ∧
        (it.sent_ts != 0 && decide (now - it.sent_ts < cfg.resend_after)) = false := by
  rw [collectActions_snd, List.map_map]
  simp only [List.mem_map, List.mem_filter, Function.comp, QueuedAction.out_id,
    Bool.not_eq_true']
  constructor
  · rintro ⟨it, ⟨hq, hgate⟩, hid⟩
    exact ⟨it, hq, hid, hgate⟩
  · rintro ⟨it, hq, hid, hgate⟩
    exact ⟨it, ⟨hq, hgate⟩, hid⟩

/-- The per-item update performed by `_collect_actions` never changes the
item id. -/
theorem collect_update_id (cfg : Config) (now : Int) (it : QueuedAction) :
    (if it.sent_ts != 0 && decide (now - it.sent_ts < cfg.resend_after) then it
     else { it with sent_ts := now }).id = it.id := by
  split <;> rfl

/-- C6: if `_collect_actions` at time `t > 0` includes action A (setting its
last-sent to `t`), then on the updated queue (queue ids assumed unique, as
enqueue generates fresh uuid4 ids) a second collect at `tp` with
`tp - t < resend_after` does not include A, a collect at `tp` with
`tp - t ≥ resend_after` includes A again, and the collected ids always
appear in queue order (a sublist of the queue id sequence). -/
theorem C6_resend_gating (cfg : Config) (q : List QueuedAction) (A : String)
    (t tp : Int) (ht : 0 < t)
    (hnodup : (q.map (fun it => it.id)).Nodup)
    (hA : A ∈ (collectActions cfg t q).2.map (fun a => a.id)) :
    (tp - t < cfg.resend_after →
      A ∉ (collectActions cfg tp (collectActions cfg t q).1).2.map (fun a => a.id)) ∧
    (cfg.resend_after ≤ tp - t →
      A ∈ (collectActions cfg tp (collectActions cfg t q).1).2.map (fun a => a.id)) ∧
    ((collectActions cfg t q).2.map (fun a => a.id)).Sublist
      (q.map (fun it => it.id)) := by
  obtain ⟨it, hq, hid, hgate⟩ := (mem_collect_ids cfg t q A).mp hA
  have hupd : (if it.sent_ts != 0 && decide (t - it.sent_ts < cfg.resend_after)
      then it else { it with sent_ts := t }) = { it with sent_ts := t } := by
    rw [if_neg]
    simp [hgate]
  have hmem1 : ({ it with sent_ts := t } : QueuedAction) ∈ (collectActions cfg t q).1 := by
    rw [collectActions_fst]
    exact List.mem_map.mpr ⟨it, hq, hupd⟩
  refine ⟨?_, ?_, ?_⟩
  · intro hlt hmem
    obtain ⟨jt, hjq1, hjid, hjgate⟩ :=
      (mem_collect_ids cfg tp (collectActions cfg t q).1 A).mp hmem
    rw [collectActions_fst] at hjq1
    obtain ⟨kt, hkq, hkeq⟩ := List.mem_map.mp hjq1
    have hktid : kt.id = A := by
      rw [← hjid, ← hkeq]
      exact (collect_update_id cfg t kt).symm
    have hkit : kt = it :=
      List.inj_on_of_nodup_map hnodup hkq hq (by rw [hktid, hid])
    subst hkit
    rw [hupd] at hkeq
    rw [← hkeq] at hjgate
    dsimp only at hjgate
    have hT : ((t != 0) && decide (tp - t < cfg.resend_after)) = true := by
      simp only [Bool.and_eq_true, bne_iff_ne, ne_eq, decide_eq_true_eq]
      exact ⟨by omega, by omega⟩
    rw [hT] at hjgate
    exact Bool.noConfusion hjgate
  · intro hge
    apply (mem_collect_ids cfg tp (collectActions cfg t q).1 A).mpr
    refine ⟨{ it with sent_ts := t }, hmem1, hid, ?_⟩
    have : decide (tp - t < cfg.resend_after) = false := by
      simp only [decide_eq_false_iff_not]
      omega
    simp [this]
  · rw [collectActions_snd, List.map_map]
    have hfun : ((fun a => ActionOut.id a) ∘ QueuedAction.out) =
        (fun it => QueuedAction.id it) := by
      funext it
      rfl
    rw [hfun]
    exact (List.filter_sublist _).map _

/-- Witness for C6 at a concrete input: one fresh action collected at time
10, re-collected at times 12 (suppressed) and 16 (due again) with
`resend_after = 5`. -/
theorem C6_witness :
    ((12 : Int) - 10 < cfg0.resend_after →
      "q1" ∉ (collectActions cfg0 12 (collectActions cfg0 10 [qaFix "q1" "toast" 300 0 0]).1).2.map
        (fun a => a.id)) ∧
    (cfg0.resend_after ≤ (12 : Int) - 10 →
      "q1" ∈ (collectActions cfg0 12 (collectActions cfg0 10 [qaFix "q1" "toast" 300 0 0]).1).2.map
        (fun a => a.id)) ∧
    ((collectActions cfg0 10 [qaFix "q1" "toast" 300 0 0]).2.map (fun a => a.id)).Sublist
      ([qaFix "q1" "toast" 300 0 0].map (fun it => it.id)) :=
  C6_resend_gating cfg0 [qaFix "q1" "toast" 300 0 0] "q1" 10 12 (by decide)
    (by decide) (by decide)

/-- The index returned by `_find_result_index` designates the first entry
matching the action id. -/
theorem findResultIndex_bind_get (rs : List ResultEntry) (aid : String) :
    (findResultIndex rs aid).bind (fun i => rs.get? i) =
      rs.find? (fun r => r.id == aid) := by
  induction rs with
  | nil => rfl
  | cons r rest ih =>
      unfold findResultIndex
      by_cases h : (r.id == aid) = true
      · rw [if_pos h, @List.find?_cons_of_pos _ (fun r => r.id == aid) r rest h]
        rfl
      · rw [if_neg h, @List.find?_cons_of_neg _ (fun r => r.id == aid) r rest h]
        rcases hr : findResultIndex rest aid with _ | i
        · rw [hr] at ih
          simpa using ih
        · rw [hr] at ih
          simpa using ih

/-- A missing index from `_find_result_index` means no entry matches. -/
theorem findResultIndex_none_iff (rs : List ResultEntry) (aid : String) :
    findResultIndex rs aid = none ↔ rs.find? (fun r => r.id == aid) = none := by
  induction rs with
  | nil => simp [findResultIndex, List.find?]
  | cons r rest ih =>
      unfold findResultIndex
      by_cases h : (r.id == aid) = true
      · simp [List.find?_cons, h]
      · simp [List.find?_cons, h, ih]

/-- The index returned by `_find_result_index` is in bounds. -/
theorem findResultIndex_lt (rs : List ResultEntry) (aid : String) (i : Nat)
    (h : findResultIndex rs aid = some i) : i < rs.length := by
  induction rs generalizing i with
  | nil => exact Option.noConfusion h
  | cons r rest ih =>
      unfold findResultIndex at h
      by_cases hr : (r.id == aid) = true
      · rw [if_pos hr] at h
        injection h with h
        subst h
        simp
      · rw [if_neg hr] at h
        rcases hx : findResultIndex rest aid with _ | j
        · rw [hx] at h
          exact Option.noConfusion h
        · rw [hx] at h
          injection h with h
          subst h
          have := ih j hx
          simp
          omega

/-- Popping the first matching entry leaves no further match when the entry
was the only one with that id. -/
theorem erase_first_match_none (rs : List ResultEntry) (aid : String)
    (hu : (rs.filter (fun r => r.id == aid)).length ≤ 1) :
    ∀ i, findResultIndex rs aid = some i →
      (rs.eraseIdx i).find? (fun r => r.id == aid) = none := by
  induction rs with
  | nil => intro i h; exact Option.noConfusion h
  | cons r rest ih =>
      intro i h
      unfold findResultIndex at h
      by_cases hr : (r.id == aid) = true
      · rw [if_pos hr] at h
        injection h with h
        subst h
        simp only [List.eraseIdx_cons_zero]
        rw [List.find?_eq_none]
        have hfilter : rest.filter (fun r => r.id == aid) = [] := by
          rw [@List.filter_cons_of_pos _ (fun r => r.id == aid) r rest hr] at hu
          simp only [List.length_cons] at hu
          exact List.length_eq_zero.mp (by omega)
        intro x hx hxid
        have hxmem : x ∈ rest.filter (fun r => r.id == aid) :=
          List.mem_filter.mpr ⟨hx, hxid⟩
        rw [hfilter] at hxmem
        exact List.not_mem_nil x hxmem
      · rw [if_neg hr] at h
        rcases hx : findResultIndex rest aid with _ | j
        · rw [hx] at h
          exact Option.noConfusion h
        · rw [hx] at h
          injection h with h
          subst h
          show ((r :: rest).eraseIdx (j + 1)).find? (fun r => r.id == aid) = none
          rw [List.eraseIdx_cons_succ]
          rw [@List.find?_cons_of_neg _ (fun r => r.id == aid) r (rest.eraseIdx j) hr]
          refine ih ?_ j hx
          rw [@List.filter_cons_of_neg _ (fun r => r.id == aid) r rest hr] at hu
          exact hu

/-- Counterexample to C9 as stated: with two stored result entries sharing
action id `x1`, `get_result` with `pop` returns the first and removes
exactly it, but a subsequent get for the same action id returns the second
entry, NOT the not-found signal the claim promises. -/
theorem C9_counterexample :
    (getResult (stFix "dev1" devC9dup) "dev1" "x1" true 5).result = some resA ∧
    (getResult (getResult (stFix "dev1" devC9dup) "dev1" "x1" true 5).state
      "dev1" "x1" true 6).result = some resB :=
  ⟨rfl, rfl⟩

/-- C9 (amended): for a known device, `get_result` with `pop = false` returns
the first stored entry matching the action id and leaves the state (and so
the result list) unchanged; with `pop = true` it returns that entry and
removes exactly it, so when at most one stored entry carries that id a
subsequent get returns the explicit not-found signal (`None`); when no entry
matches, it returns `None` without touching the state rather than raising. -/
theorem C9_get_result_pop_semantics (st : BridgeState) (d aid : String)
    (now now2 : Int) (dev : Device)
    (hstrip : pyStrip d = d) (hne : d ≠ "") (hnl : d ≠ "last")
    (hdev : lookupDevice st d = some dev)
    (hu : (dev.results.filter (fun r => r.id == aid)).length ≤ 1) :
    (getResult st d aid false now =
      { result := dev.results.find? (fun r => r.id == aid), state := st }) ∧
    ((getResult st d aid true now).result =
      dev.results.find? (fun r => r.id == aid)) ∧
    (dev.results.find? (fun r => r.id == aid) = none →
      getResult st d aid true now = { result := none, state := st }) ∧
    (∀ pop2 : Bool,
      (getResult (getResult st d aid true now).state d aid pop2 now2).result =
        none) := by
  have h1 : (d == "last") = false := by simpa using hnl
  rcases hidx : findResultIndex dev.results aid with _ | idx
  · have hfind : dev.results.find? (fun r => r.id == aid) = none :=
      (findResultIndex_none_iff _ _).mp hidx
    have hpop : getResult st d aid true now = { result := none, state := st } := by
      simp only [getResult, hstrip, h1, Bool.false_eq_true, if_false, hne]
      rw [getDevice_of_lookup st d now dev hdev, hidx]
    have hpeek : getResult st d aid false now = { result := none, state := st } := by
      simp only [getResult, hstrip, h1, Bool.false_eq_true, if_false, hne]
      rw [getDevice_of_lookup st d now dev hdev, hidx]
    refine ⟨by rw [hpeek, hfind], by rw [hpop, hfind], fun _ => hpop, ?_⟩
    intro pop2
    rw [hpop]
    simp only [getResult, hstrip, h1, Bool.false_eq_true, if_false, hne]
    rw [getDevice_of_lookup st d now2 dev hdev, hidx]
  · have hlt : idx < dev.results.length := findResultIndex_lt _ _ _ hidx
    rcases hgs : dev.results.get? idx with _ | item
    · exfalso
      rw [List.get?_eq_none] at hgs
      omega
    have hfind : dev.results.find? (fun r => r.id == aid) = some item := by
      have hb := findResultIndex_bind_get dev.results aid
      rw [hidx] at hb
      simp only [Option.some_bind] at hb
      rw [← hb, hgs]
    have hpeek : getResult st d aid false now =
        { result := some item, state := st } := by
      simp only [getResult, hstrip, h1, Bool.false_eq_true, if_false, hne]
      rw [getDevice_of_lookup st d now dev hdev, hidx]
      simp only [hgs]
    have hpop : getResult st d aid true now =
        { result := some item,
          state := setDevice st d { dev with results := dev.results.eraseIdx idx } } := by
      simp only [getResult, hstrip, h1, Bool.false_eq_true, if_false, hne]
      rw [getDevice_of_lookup st d now dev hdev, hidx]
      simp only [hgs]
      rw [if_pos trivial]
    have hlookup2 : lookupDevice
        (setDevice st d { dev with results := dev.results.eraseIdx idx }) d =
        some { dev with results := dev.results.eraseIdx idx } :=
      lookupDevice_setDevice_self st d _ (by rw [hdev]; rfl)
    have hidx2 : findResultIndex (dev.results.eraseIdx idx) aid = none :=
      (findResultIndex_none_iff _ _).mpr
        (erase_first_match_none dev.results aid hu idx hidx)
    refine ⟨by rw [hpeek, hfind], by rw [hpop, hfind], ?_, ?_⟩
    · intro habs
      rw [hfind] at habs
      exact Option.noConfusion habs
    · intro pop2
      rw [hpop]
      simp only [getResult, hstrip, h1, Bool.false_eq_true, if_false, hne]
      rw [getDevice_of_lookup _ d now2 _ hlookup2, hidx2]

/-- Witness for C9 (amended) at a concrete input: a single stored result
popped once. -/
theorem C9_witness :
    (getResult (stFix "dev1" devC9) "dev1" "x1" false 5 =
      { result := devC9.results.find? (fun r => r.id == "x1"),
        state := stFix "dev1" devC9 }) ∧
    ((getResult (stFix "dev1" devC9) "dev1" "x1" true 5).result =
      devC9.results.find? (fun r => r.id == "x1")) ∧
    (devC9.results.find? (fun r => r.id == "x1") = none →
      getResult (stFix "dev1" devC9) "dev1" "x1" true 5 =
        { result := none, state := stFix "dev1" devC9 }) ∧
    (∀ pop2 : Bool,
      (getResult (getResult (stFix "dev1" devC9) "dev1" "x1" true 5).state
        "dev1" "x1" pop2 6).result = none) :=
  C9_get_result_pop_semantics (stFix "dev1" devC9) "dev1" "x1" 5 6 devC9
    (by decide) (by decide) (by decide) rfl (by decide)

/-- C10: `get_result` for a never-seen device id runs the lookup-or-create
path under the lock, so even though the call returns the not-found signal,
a fresh Device record (empty queue, logs and results, last-seen 0) is
inserted in the registry, and the device subsequently appears in the
`/status` snapshot: the read path is not side-effect-free on the device
table. -/
theorem C10_get_result_creates_device (st : BridgeState) (d aid : String)
    (pop : Bool) (now : Int)
    (hstrip : pyStrip d = d) (hne : d ≠ "") (hnl : d ≠ "last")
    (habsent : lookupDevice st d = none) :
    (getResult st d aid pop now).result = none ∧
    lookupDevice (getResult st d aid pop now).state d = some (newDevice d now) ∧
    ((newDevice d now).queue = [] ∧ (newDevice d now).logs = [] ∧
      (newDevice d now).results = [] ∧ (newDevice d now).last_seen = 0) ∧
    d ∈ (statusPayload (getResult st d aid pop now).state).1.map
      (fun s => s.id) := by
  have h1 : (d == "last") = false := by simpa using hnl
  have hgd : getDevice st d now =
      (newDevice d now,
       { st with devices := st.devices ++ [(d, newDevice d now)] }) := by
    unfold getDevice
    rw [habsent]
  have hout : getResult st d aid pop now =
      { result := none,
        state := { st with devices := st.devices ++ [(d, newDevice d now)] } } := by
    simp only [getResult, hstrip, h1, Bool.false_eq_true, if_false, hne]
    rw [hgd]
    rfl
  refine ⟨by rw [hout], ?_, ⟨rfl, rfl, rfl, rfl⟩, ?_⟩
  · rw [hout]
    have := lookupDevice_getDevice st d now
    rw [hgd] at this
    exact this
  · rw [hout]
    unfold statusPayload
    simp only [List.map_map, List.mem_map]
    refine ⟨(d, newDevice d now), ?_, rfl⟩
    exact List.mem_append_right _ (List.mem_cons_self _ _)

/-- Witness for C10 at a concrete input: a result fetch against an empty
registry. -/
theorem C10_witness :
    (getResult { devices := [], last_device_id := none } "ghost" "x" false 7).result = none ∧
    lookupDevice (getResult { devices := [], last_device_id := none }
      "ghost" "x" false 7).state "ghost" = some (newDevice "ghost" 7) ∧
    ((newDevice "ghost" 7).queue = [] ∧ (newDevice "ghost" 7).logs = [] ∧
      (newDevice "ghost" 7).results = [] ∧ (newDevice "ghost" 7).last_seen = 0) ∧
    "ghost" ∈ (statusPayload (getResult { devices := [], last_device_id := none }
      "ghost" "x" false 7).state).1.map (fun s => s.id) :=
  C10_get_result_creates_device { devices := [], last_device_id := none }
    "ghost" "x" false 7 (by decide) (by decide) (by decide) rfl

/-! Lemmas for the frame codec round-trip (C7). -/

@[simp] theorem beBytes_length (k n : Nat) : (beBytes k n).length = k := by
  induction k generalizing n with
  | zero => rfl
  | succ k ih => simp [beBytes, ih]

theorem beVal_aux (k : Nat) : ∀ (n acc : Nat),
    List.foldl (fun a b => a * 256 + b) acc (beBytes k n) =
      acc * 256 ^ k + n % 256 ^ k := by
  induction k with
  | zero =>
      intro n acc
      simp [beBytes, beVal, Nat.mod_one]
  | succ k ih =>
      intro n acc
      simp only [beBytes, List.foldl_cons]
      rw [ih]
      have h256 : 0 < 256 ^ k := pow_pos (by norm_num) k
      have hx : n % 256 ^ k % 256 ^ k = n % 256 ^ k :=
        Nat.mod_eq_of_lt (Nat.mod_lt _ h256)
      rw [hx, pow_succ, Nat.mod_mul]
      ring

theorem beVal_beBytes (k n : Nat) (h : n < 256 ^ k) :
    beVal (beBytes k n) = n := by
  unfold beVal
  rw [beVal_aux]
  simp [Nat.mod_eq_of_lt h]

/-- Reading exactly the length of a prefix consumes it. -/
theorem recvExact_append (pre rest : List Nat) (n : Nat) (h : pre.length = n) :
    recvExact n (pre ++ rest) = some (pre, rest) := by
  unfold recvExact
  rw [if_neg (by rw [List.length_append, ← h]; omega)]
  rw [List.take_left' h, List.drop_left' h]

/-- Reading a whole list consumes it exactly. -/
theorem recvExact_self (p : List Nat) : recvExact p.length p = some (p, []) := by
  have := recvExact_append p [] p.length rfl
  simpa using this

/-- Bit-level facts about the length byte for the inline tier. -/
theorem lenByteFacts : ∀ len < 126,
    (len &&& 0x80) = 0 ∧ (len &&& 0x7F) = len ∧
    ¬((0x80 ||| len) &&& 0x80) = 0 ∧ ((0x80 ||| len) &&& 0x7F) = len ∧
    len ≠ 126 ∧ len ≠ 127 := by decide

/-- Masking is an involution: applying the 4-byte XOR mask twice restores
the payload. -/
theorem maskBytes_maskBytes (mk p : List Nat) :
    maskBytes mk (maskBytes mk p) = p := by
  unfold maskBytes
  apply List.ext_getElem
  · simp
  · intro i h1 h2
    simp only [List.getElem_mapIdx]
    rw [Nat.xor_assoc, Nat.xor_self, Nat.xor_zero]

@[simp] theorem maskBytes_length (mk p : List Nat) :
    (maskBytes mk p).length = p.length := by
  simp [maskBytes]

/-- Decoding an assembled unmasked text frame: a FIN text header byte, a
length byte without the mask bit, the extended-length bytes appropriate for
the tier, then the raw payload. -/
theorem recvFrame_unmasked (b2 : Nat) (ext payload : List Nat)
    (hmask : b2 &&& 0x80 = 0)
    (hext :
      (¬b2 &&& 0x7F = 126 ∧ ¬b2 &&& 0x7F = 127 ∧ ext = [] ∧
        b2 &&& 0x7F = payload.length) ∨
      (b2 &&& 0x7F = 126 ∧ ext.length = 2 ∧ beVal ext = payload.length) ∨
      (¬b2 &&& 0x7F = 126 ∧ b2 &&& 0x7F = 127 ∧ ext.length = 8 ∧
        beVal ext = payload.length)) :
    recvFrame (129 :: b2 :: (ext ++ payload)) = .text payload [] := by
  have hstream : (129 : Nat) :: b2 :: (ext ++ payload) =
      [129, b2] ++ (ext ++ payload) := rfl
  unfold recvFrame
  rw [hstream, recvExact_append [129, b2] (ext ++ payload) 2 rfl]
  dsimp only
  simp only [hmask, bne_self_eq_false]
  have hreadPayload : ∀ s3 : List Nat, s3 = payload →
      (if payload.length = 0 then some (([] : List Nat), s3)
       else recvExact payload.length s3) = some (payload, []) := by
    intro s3 hs3
    rw [hs3]
    by_cases hz : payload.length = 0
    · rw [if_pos hz]
      rw [List.length_eq_zero.mp hz]
    · rw [if_neg hz, recvExact_self]
  rcases hext with ⟨h126, h127, hnil, hlen⟩ | ⟨h126, hlen2, hval⟩ |
      ⟨h126, h127, hlen8, hval⟩
  · rw [if_neg h126, if_neg h127]
    subst hnil
    dsimp only
    rw [hlen]
    rw [hreadPayload _ (by simp)]
    dsimp only
    rw [if_neg (by decide : ¬(129 &&& 15 = 8))]
    rw [if_neg (by decide : ¬(129 &&& 15 = 9))]
    rw [if_neg (by decide : ¬(129 &&& 15 = 10))]
    rw [if_neg (by decide : ¬((129 &&& 15 != 1) = true))]
    simp only [Bool.false_and, Bool.false_eq_true, if_false]
  · rw [if_pos h126]
    rw [show ext ++ payload = ext ++ payload from rfl,
      recvExact_append ext payload 2 hlen2]
    dsimp only
    rw [hval]
    rw [hreadPayload _ (by simp)]
    dsimp only
    rw [if_neg (by decide : ¬(129 &&& 15 = 8))]
    rw [if_neg (by decide : ¬(129 &&& 15 = 9))]
    rw [if_neg (by decide : ¬(129 &&& 15 = 10))]
    rw [if_neg (by decide : ¬((129 &&& 15 != 1) = true))]
    simp only [Bool.false_and, Bool.false_eq_true, if_false]
  · rw [if_neg h126, if_pos h127]
    rw [recvExact_append ext payload 8 hlen8]
    dsimp only
    rw [hval]
    rw [hreadPayload _ (by simp)]
    dsimp only
    rw [if_neg (by decide : ¬(129 &&& 15 = 8))]
    rw [if_neg (by decide : ¬(129 &&& 15 = 9))]
    rw [if_neg (by decide : ¬(129 &&& 15 = 10))]
    rw [if_neg (by decide : ¬((129 &&& 15 != 1) = true))]
    simp only [Bool.false_and, Bool.false_eq_true, if_false]

/-- Decoding an assembled masked text frame: the same header with the mask
bit set, the 4-byte mask key, then the masked payload; the decoder unmasks
and yields the original payload. -/
theorem recvFrame_masked (b2 : Nat) (ext mk payload : List Nat)
    (hmk : mk.length = 4)
    (hmask : ¬b2 &&& 0x80 = 0)
    (hext :
      (¬b2 &&& 0x7F = 126 ∧ ¬b2 &&& 0x7F = 127 ∧ ext = [] ∧
        b2 &&& 0x7F = payload.length) ∨
      (b2 &&& 0x7F = 126 ∧ ext.length = 2 ∧ beVal ext = payload.length) ∨
      (¬b2 &&& 0x7F = 126 ∧ b2 &&& 0x7F = 127 ∧ ext.length = 8 ∧
        beVal ext = payload.length)) :
    recvFrame (129 :: b2 :: (ext ++ (mk ++ maskBytes mk payload))) =
      .text payload [] := by
  have hstream : (129 : Nat) :: b2 :: (ext ++ (mk ++ maskBytes mk payload)) =
      [129, b2] ++ (ext ++ (mk ++ maskBytes mk payload)) := rfl
  have hmkne : mk.isEmpty = false := by
    cases mk
    · simp at hmk
    · rfl
  have hbne : (b2 &&& 0x80 != 0) = true := by
    simpa using hmask
  unfold recvFrame
  rw [hstream, recvExact_append [129, b2] _ 2 rfl]
  dsimp only
  simp only [hbne, eq_self_iff_true, if_true]
  have hreadPayload :
      (if payload.length = 0 then some (([] : List Nat), maskBytes mk payload)
       else recvExact payload.length (maskBytes mk payload)) =
      some (maskBytes mk payload, []) := by
    by_cases hz : payload.length = 0
    · rw [if_pos hz]
      rw [List.length_eq_zero.mp hz]
      rfl
    · rw [if_neg hz, show payload.length = (maskBytes mk payload).length from
        (maskBytes_length mk payload).symm, recvExact_self]
  have hunmask : (if (true && !mk.isEmpty) = true
      then maskBytes mk (maskBytes mk payload)
      else maskBytes mk payload) = payload := by
    rw [hmkne]
    rw [if_pos (by decide)]
    exact maskBytes_maskBytes mk payload
  rcases hext with ⟨h126, h127, hnil, hlen⟩ | ⟨h126, hlen2, hval⟩ |
      ⟨h126, h127, hlen8, hval⟩
  · rw [if_neg h126, if_neg h127]
    subst hnil
    dsimp only
    rw [show ([] : List Nat) ++ (mk ++ maskBytes mk payload) =
      mk ++ maskBytes mk payload from rfl]
    rw [recvExact_append mk _ 4 hmk]
    dsimp only
    rw [hlen, hreadPayload]
    dsimp only
    rw [if_neg (by decide : ¬(129 &&& 15 = 8))]
    rw [if_neg (by decide : ¬(129 &&& 15 = 9))]
    rw [if_neg (by decide : ¬(129 &&& 15 = 10))]
    rw [if_neg (by decide : ¬((129 &&& 15 != 1) = true))]
    rw [hunmask]
  · rw [if_pos h126]
    rw [recvExact_append ext _ 2 hlen2]
    dsimp only
    rw [recvExact_append mk _ 4 hmk]
    dsimp only
    rw [hval, hreadPayload]
    dsimp only
    rw [if_neg (by decide : ¬(129 &&& 15 = 8))]
    rw [if_neg (by decide : ¬(129 &&& 15 = 9))]
    rw [if_neg (by decide : ¬(129 &&& 15 = 10))]
    rw [if_neg (by decide : ¬((129 &&& 15 != 1) = true))]
    rw [hunmask]
  · rw [if_neg h126, if_pos h127]
    rw [recvExact_append ext _ 8 hlen8]
    dsimp only
    rw [recvExact_append mk _ 4 hmk]
    dsimp only
    rw [hval, hreadPayload]
    dsimp only
    rw [if_neg (by decide : ¬(129 &&& 15 = 8))]
    rw [if_neg (by decide : ¬(129 &&& 15 = 9))]
    rw [if_neg (by decide : ¬(129 &&& 15 = 10))]
    rw [if_neg (by decide : ¬((129 &&& 15 != 1) = true))]
    rw [hunmask]

/-- Byte-level round trip for the unmasked server frame, across all three
length tiers. -/
theorem recvFrame_sendFrame (p : List Nat) (h64 : p.length < 2 ^ 64) :
    recvFrame (sendFrame 1 p) = .text p [] := by
  unfold sendFrame
  dsimp only
  by_cases h125 : p.length ≤ 125
  · rw [if_pos h125]
    obtain ⟨f1, f2, f3, f4, f5, f6⟩ := lenByteFacts p.length (by omega)
    have hb : ([0x80 ||| (1 &&& 0x0F), p.length] ++ p) =
        129 :: p.length :: (([] : List Nat) ++ p) := by
      rw [show (0x80 ||| (1 &&& 0x0F)) = 129 from by decide]
      rfl
    rw [hb]
    exact recvFrame_unmasked p.length [] p f1
      (Or.inl ⟨by rw [f2]; exact f5, by rw [f2]; exact f6, rfl, f2⟩)
  · rw [if_neg h125]
    by_cases h65 : p.length < 65536
    · rw [if_pos h65]
      have hb : (([0x80 ||| (1 &&& 0x0F), 126] ++ beBytes 2 p.length) ++ p) =
          129 :: 126 :: (beBytes 2 p.length ++ p) := by
        rw [show (0x80 ||| (1 &&& 0x0F)) = 129 from by decide]
        simp
      rw [hb]
      exact recvFrame_unmasked 126 (beBytes 2 p.length) p (by decide)
        (Or.inr (Or.inl ⟨by decide, beBytes_length 2 _,
          beVal_beBytes 2 _ (by rw [show (256 : Nat) ^ 2 = 65536 from by norm_num]; exact h65)⟩))
    · rw [if_neg h65]
      have hb : (([0x80 ||| (1 &&& 0x0F), 127] ++ beBytes 8 p.length) ++ p) =
          129 :: 127 :: (beBytes 8 p.length ++ p) := by
        rw [show (0x80 ||| (1 &&& 0x0F)) = 129 from by decide]
        simp
      rw [hb]
      exact recvFrame_unmasked 127 (beBytes 8 p.length) p (by decide)
        (Or.inr (Or.inr ⟨by decide, by decide, beBytes_length 8 _,
          beVal_beBytes 8 _ (by rw [show (256 : Nat) ^ 8 = 2 ^ 64 from by norm_num]; exact h64)⟩))

/-- Byte-level round trip for the masked client-to-server frame, across all
three length tiers. -/
theorem recvFrame_sendFrameMasked (mk p : List Nat) (hmk : mk.length = 4)
    (h64 : p.length < 2 ^ 64) :
    recvFrame (sendFrameMasked 1 mk p) = .text p [] := by
  unfold sendFrameMasked
  dsimp only
  by_cases h125 : p.length ≤ 125
  · rw [if_pos h125]
    obtain ⟨f1, f2, f3, f4, f5, f6⟩ := lenByteFacts p.length (by omega)
    have hb : ([0x80 ||| (1 &&& 0x0F)] ++ [0x80 ||| p.length] ++ mk ++
          maskBytes mk p) =
        129 :: (0x80 ||| p.length) :: (([] : List Nat) ++ (mk ++ maskBytes mk p)) := by
      rw [show (0x80 ||| (1 &&& 0x0F)) = 129 from by decide]
      simp
    rw [hb]
    exact recvFrame_masked (0x80 ||| p.length) [] mk p hmk f3
      (Or.inl ⟨by rw [f4]; exact f5, by rw [f4]; exact f6, rfl, f4⟩)
  · rw [if_neg h125]
    by_cases h65 : p.length < 65536
    · rw [if_pos h65]
      have hb : ([0x80 ||| (1 &&& 0x0F)] ++ ([0x80 ||| 126] ++ beBytes 2 p.length) ++
            mk ++ maskBytes mk p) =
          129 :: (0x80 ||| 126) :: (beBytes 2 p.length ++ (mk ++ maskBytes mk p)) := by
        rw [show (0x80 ||| (1 &&& 0x0F)) = 129 from by decide]
        simp
      rw [hb]
      exact recvFrame_masked (0x80 ||| 126) (beBytes 2 p.length) mk p hmk (by decide)
        (Or.inr (Or.inl ⟨by decide, beBytes_length 2 _,
          beVal_beBytes 2 _ (by rw [show (256 : Nat) ^ 2 = 65536 from by norm_num]; exact h65)⟩))
    · rw [if_neg h65]
      have hb : ([0x80 ||| (1 &&& 0x0F)] ++ ([0x80 ||| 127] ++ beBytes 8 p.length) ++
            mk ++ maskBytes mk p) =
          129 :: (0x80 ||| 127) :: (beBytes 8 p.length ++ (mk ++ maskBytes mk p)) := by
        rw [show (0x80 ||| (1 &&& 0x0F)) = 129 from by decide]
        simp
      rw [hb]
      exact recvFrame_masked (0x80 ||| 127) (beBytes 8 p.length) mk p hmk (by decide)
        (Or.inr (Or.inr ⟨by decide, by decide, beBytes_length 8 _,
          beVal_beBytes 8 _ (by rw [show (256 : Nat) ^ 8 = 2 ^ 64 from by norm_num]; exact h64)⟩))

/-- The UTF-8 encoding of a scalar value is never empty. -/
theorem utf8EncodeNat_length_pos (n : Nat) : 0 < (utf8EncodeNat n).length := by
  unfold utf8EncodeNat
  split_ifs <;> simp

/-- Decoding step applied to the UTF-8 encoding of one scalar value at the
head of a byte stream peels off exactly that scalar value. -/
theorem utf8DecodeStep_encodeChar (c : Char) (rest : List Nat) :
    utf8DecodeStep (utf8EncodeNat c.toNat ++ rest) = some (c.toNat, rest) := by
  have hval : c.toNat < 0xd800 ∨ (0xdfff < c.toNat ∧ c.toNat < 0x110000) := c.valid
  by_cases h1 : c.toNat < 0x80
  · have henc : utf8EncodeNat c.toNat = [c.toNat] := by
      unfold utf8EncodeNat
      rw [if_pos h1]
    rw [henc]
    show utf8DecodeStep (c.toNat :: rest) = _
    delta utf8DecodeStep
    dsimp only
    rw [if_pos h1]
  by_cases h2 : c.toNat < 0x800
  · have henc : utf8EncodeNat c.toNat =
        [0xC0 + c.toNat / 64, 0x80 + c.toNat % 64] := by
      unfold utf8EncodeNat
      rw [if_neg h1, if_pos h2]
    rw [henc]
    show utf8DecodeStep ((0xC0 + c.toNat / 64) :: (0x80 + c.toNat % 64) :: rest) = _
    delta utf8DecodeStep
    dsimp only
    rw [if_neg (by omega), if_neg (by omega), if_pos (by omega)]
    rw [if_pos ⟨by omega, by omega⟩]
    rw [show (0xC0 + c.toNat / 64 - 0xC0) * 64 + (0x80 + c.toNat % 64 - 0x80) =
      c.toNat from by omega]
  by_cases h3 : c.toNat < 0x10000
  · have henc : utf8EncodeNat c.toNat =
        [0xE0 + c.toNat / 4096, 0x80 + c.toNat / 64 % 64, 0x80 + c.toNat % 64] := by
      unfold utf8EncodeNat
      rw [if_neg h1, if_neg h2, if_pos h3]
    rw [henc]
    show utf8DecodeStep ((0xE0 + c.toNat / 4096) :: (0x80 + c.toNat / 64 % 64) ::
      (0x80 + c.toNat % 64) :: rest) = _
    delta utf8DecodeStep
    dsimp only
    rw [if_neg (by omega), if_neg (by omega), if_neg (by omega), if_pos (by omega)]
    rw [if_pos ⟨⟨by omega, by omega⟩, ⟨by omega, by omega⟩, by omega, by omega⟩]
    rw [show (0xE0 + c.toNat / 4096 - 0xE0) * 4096 +
      (0x80 + c.toNat / 64 % 64 - 0x80) * 64 + (0x80 + c.toNat % 64 - 0x80) =
      c.toNat from by omega]
  · have h4 : c.toNat < 0x110000 := by omega
    have henc : utf8EncodeNat c.toNat =
        [0xF0 + c.toNat / 262144, 0x80 + c.toNat / 4096 % 64,
         0x80 + c.toNat / 64 % 64, 0x80 + c.toNat % 64] := by
      unfold utf8EncodeNat
      rw [if_neg h1, if_neg h2, if_neg h3]
    rw [henc]
    show utf8DecodeStep ((0xF0 + c.toNat / 262144) :: (0x80 + c.toNat / 4096 % 64) ::
      (0x80 + c.toNat / 64 % 64) :: (0x80 + c.toNat % 64) :: rest) = _
    delta utf8DecodeStep
    dsimp only
    rw [if_neg (by omega), if_neg (by omega), if_neg (by omega), if_neg (by omega),
      if_pos (by omega)]
    rw [if_pos ⟨⟨by omega, by omega⟩, ⟨by omega, by omega⟩, ⟨by omega, by omega⟩,
      by omega, by omega⟩]
    rw [show (0xF0 + c.toNat / 262144 - 0xF0) * 262144 +
      (0x80 + c.toNat / 4096 % 64 - 0x80) * 4096 +
      (0x80 + c.toNat / 64 % 64 - 0x80) * 64 + (0x80 + c.toNat % 64 - 0x80) =
      c.toNat from by omega]

/-- The decode loop, given at least as much fuel as there are bytes, inverts
the character-list UTF-8 encoding. -/
theorem utf8DecodeGo_encode : ∀ (cs : List Char) (fuel : Nat),
    ((cs.map (fun c => utf8EncodeNat c.toNat)).flatten).length ≤ fuel →
    utf8DecodeGo fuel ((cs.map (fun c => utf8EncodeNat c.toNat)).flatten) =
      some cs := by
  intro cs
  induction cs with
  | nil =>
      intro fuel _
      cases fuel <;> rfl
  | cons c cs ih =>
      intro fuel hfuel
      simp only [List.map_cons, List.flatten_cons] at hfuel ⊢
      have hpos : 0 < (utf8EncodeNat c.toNat).length := utf8EncodeNat_length_pos c.toNat
      rw [List.length_append] at hfuel
      cases fuel with
      | zero => omega
      | succ f =>
          rcases henc : utf8EncodeNat c.toNat with _ | ⟨b, tl⟩
          · rw [henc] at hpos
            simp at hpos
          · rw [List.cons_append]
            simp only [utf8DecodeGo]
            rw [← List.cons_append, ← henc, utf8DecodeStep_encodeChar]
            dsimp only
            rw [ih f (by omega)]
            simp [Char.ofNat_toNat]

/-- Decoding the UTF-8 encoding of a character list yields the list back. -/
theorem utf8Decode_encode_list (cs : List Char) :
    utf8Decode ((cs.map (fun c => utf8EncodeNat c.toNat)).flatten) = some cs := by
  unfold utf8Decode
  exact utf8DecodeGo_encode cs _ (Nat.le_refl _)

/-- Python `bytes.decode("utf-8")` inverts `str.encode("utf-8")`. -/
theorem pyDecode_strUtf8 (s : String) : pyDecodeUtf8 (strUtf8 s) = s := by
  unfold pyDecodeUtf8 strUtf8
  rw [utf8Decode_encode_list s.data]

/-- Witness for C3 at a concrete input: a configured token `secret`, a
payload with no `token` field. -/
theorem C3_witness :
    handleSync
      { auth_token := "secret", max_queue := 200, max_logs := 300,
        max_results := 200, resend_after := 5 }
      { devices := [], last_device_id := none }
      (.jobj [("device_id", .jstr "dev1")]) "127.0.0.1" 42 =
      { status := 401, resp := .fail "unauthorized",
        state := { devices := [], last_device_id := none } } :=
  C3_auth_gate_rejects_and_preserves_state _ _ _ _ _ (by decide) (by decide)
    (by rw [show jget [("device_id", JVal.jstr "dev1")] "token" = none from rfl]
        exact fun h => Option.noConfusion h)

/-- C7: encoding any string as a text frame (opcode 0x1, the three-tier
length encoding chosen by the payload length) and decoding that frame
reproduces the string exactly, both for the unmasked server form and for the
client form masked with a 4-byte key (payload byte i XORed with
mask[i mod 4]); the universal quantification over the string covers all
three length tiers. -/
theorem C7_text_frame_roundtrip (s : String) (mk : List Nat)
    (h64 : (strUtf8 s).length < 2 ^ 64) (hmk : mk.length = 4) :
    recvText (sendFrame 1 (strUtf8 s)) = some (s, []) ∧
    recvText (sendFrameMasked 1 mk (strUtf8 s)) = some (s, []) := by
  constructor
  · unfold recvText
    rw [recvFrame_sendFrame (strUtf8 s) h64]
    dsimp only
    rw [pyDecode_strUtf8]
  · unfold recvText
    rw [recvFrame_sendFrameMasked mk (strUtf8 s) hmk h64]
    dsimp only
    rw [pyDecode_strUtf8]

/-- Witness for C7 at a concrete input: the string `hi` and the mask
`[7, 1, 3, 9]`. -/
theorem C7_witness :
    (strUtf8 "hi").length < 2 ^ 64 ∧ ([7, 1, 3, 9] : List Nat).length = 4 ∧
    recvText (sendFrame 1 (strUtf8 "hi")) = some ("hi", []) ∧
    recvText (sendFrameMasked 1 [7, 1, 3, 9] (strUtf8 "hi")) = some ("hi", []) := by
  have h := C7_text_frame_roundtrip "hi" [7, 1, 3, 9] (by decide) (by decide)
  exact ⟨by decide, by decide, h.1, h.2⟩

/-- C8: `_upgrade_ws` with a `Sec-WebSocket-Key` header that strips to a
non-empty key responds 101 Switching Protocols with `Sec-WebSocket-Accept`
equal to `wsAccept key` (base64 of the SHA-1 digest of the key followed by
the RFC 6455 GUID `258EAFA5-E914-47DA-95CA-C5AB0DC85B11`); with a missing
header, or one that strips to the empty string, it responds HTTP 400 with
error `missing_ws_key`. -/
theorem C8_handshake (keyHeader : Option String) :
    (pyStrip (keyHeader.getD "") ≠ "" →
      upgradeWs keyHeader =
        .switch 101 (wsAccept (pyStrip (keyHeader.getD "")))) ∧
    (pyStrip (keyHeader.getD "") = "" →
      upgradeWs keyHeader = .reject 400 "missing_ws_key") := by
  constructor
  · intro hne
    unfold upgradeWs
    rw [if_neg hne]
  · intro heq
    unfold upgradeWs
    rw [if_pos heq]

set_option maxRecDepth 100000 in
/-- Witness for C8 at concrete inputs: the RFC 6455 sample key
`dGhlIHNhbXBsZSBub25jZQ==` yields the documented accept token
`s3pPLMBiTxaQ9kYGzzhZRbK+xOo=`, and an absent header is rejected. -/
theorem C8_witness :
    upgradeWs (some "dGhlIHNhbXBsZSBub25jZQ==") =
      .switch 101 "s3pPLMBiTxaQ9kYGzzhZRbK+xOo=" ∧
    upgradeWs none = .reject 400 "missing_ws_key" := by
  constructor
  · have h := (C8_handshake (some "dGhlIHNhbXBsZSBub25jZQ==")).1 (by decide)
    rw [h]
    rfl
  · exact (C8_handshake none).2 (by decide)

end Etg
